import Mathlib

/-!
# User record service

A shallow embedding of the four route handlers of `src/server.js` and of the
schema of `src/models/User.js`.

The handlers are thin: each one calls the object-document mapper (`new User`,
`save`, `find`, `findByIdAndUpdate`, `findByIdAndDelete`) inside a `try` block
and maps the thrown error to a response by its `name` or `code`.  The mapper
and the record store are not part of the repository; their behaviour on the
calls made by the handlers is written out here as executable definitions:
casting of body values to the declared types, setters (`trim`, `lowercase`),
validators (`required`, `maxlength`, `match`, `min`, `max`), update casting and
update validators, the unique index on `email`, and the store operators `$set`
and `$inc`.

Domain of the model.
* A string is a list of code points (no lone surrogates).
* A number is an integer.  The two conversions that go through floating
  point are modelled on their integer fragment only: a string is read as a
  number when it is an optionally signed run of decimal digits (strings
  denoting fractions, exponents, radix forms or infinities are not), and a
  number is printed in full decimal (exact below 2^53).  The predicate
  `exactBody` singles out the create bodies on which no validator depends on
  either conversion outside its fragment.
* A body value is `null`, a boolean, a number, a string or an array.  Nested
  objects are not modelled.
* A body carries, of the paths the schema declares, the four user keys `name`,
  `email`, `age` and `city` only: a body is taken not to carry `_id`,
  `createdAt`, `updatedAt` or `__v`, which the mapper would cast as well.
  Keys that the schema does not declare are dropped by the mapper (strict
  mode).  An update body may in addition carry the store operator `$inc` on
  `age`; the other store operators are not modelled.
* The entries of a validation error are listed path by path in the order of
  the schema; the order in which the mapper lists them is not modelled.
* The clock reading used for `createdAt` and `updatedAt` is an argument.
* The text of messages produced by the mapper and the store driver themselves
  (cast failures, store failures) is abbreviated.
-/

namespace UserService

/-! ## JavaScript strings -/

/-- A JavaScript string, as the list of its code points. -/
abbrev JsString := List Char

/-- White space and line terminators, the characters removed by `String.prototype.trim`. -/
def isWhiteSpace (c : Char) : Bool :=
  let n := c.toNat
  n == 0x09 || n == 0x0A || n == 0x0B || n == 0x0C || n == 0x0D || n == 0x20 ||
  n == 0xA0 || n == 0x1680 || (0x2000 ≤ n && n ≤ 0x200A) || n == 0x2028 ||
  n == 0x2029 || n == 0x202F || n == 0x205F || n == 0x3000 || n == 0xFEFF

/-- The method `String.prototype.trim`. -/
def trim (s : JsString) : JsString :=
  ((s.dropWhile isWhiteSpace).reverse.dropWhile isWhiteSpace).reverse

/-- Lower-casing of one code point.  The ASCII letters are mapped exactly, as
are the two code points outside ASCII whose lower-case form contains an ASCII
letter (KELVIN SIGN and LATIN CAPITAL LETTER I WITH DOT ABOVE).  Every other
code point outside ASCII is left in place: its lower-case form is again outside
ASCII, so the `match` validator of `email` rejects it either way and it never
reaches the store. -/
def lowerChar (c : Char) : List Char :=
  let n := c.toNat
  if 0x41 ≤ n ∧ n ≤ 0x5A then [Char.ofNat (n + 32)]
  else if n = 0x212A then ['k']
  else if n = 0x130 then ['i', Char.ofNat 0x307]
  else [c]

/-- The method `String.prototype.toLowerCase`. -/
def toLowerCase (s : JsString) : JsString := s.flatMap lowerChar

/-- The `length` of a string: the number of UTF-16 code units. -/
def jsLength (s : JsString) : Nat :=
  (s.map (fun c => if 0x10000 ≤ c.toNat then 2 else 1)).sum

/-- Value of a non-empty run of decimal digits. -/
def digitsToNat (s : JsString) : Option Nat :=
  if s ≠ [] ∧ s.all Char.isDigit = true then
    some (s.foldl (fun a c => 10 * a + (c.toNat - 48)) 0)
  else none

/-- The conversion `Number(s)` on the integer fragment: surrounding white space
is ignored, the empty string is `0`, and an optionally signed run of decimal
digits is its value.  `none` stands for `NaN`. -/
def stringToNumber (s : JsString) : Option Int :=
  match trim s with
  | [] => some 0
  | '-' :: ds => (digitsToNat ds).map (fun n => -(n : Int))
  | '+' :: ds => (digitsToNat ds).map (fun n => (n : Int))
  | ds => (digitsToNat ds).map (fun n => (n : Int))

/-! ## Regular expressions -/

/-- Regular expressions without back-references or look-around. -/
inductive Regex where
  | nothing : Regex
  | empty : Regex
  | cls (p : Char → Bool) : Regex
  | seq (a b : Regex) : Regex
  | alt (a b : Regex) : Regex
  | star (a : Regex) : Regex

namespace Regex

/-- Whether the expression matches the empty string. -/
def nullable : Regex → Bool
  | nothing => false
  | empty => true
  | cls _ => false
  | seq a b => a.nullable && b.nullable
  | alt a b => a.nullable || b.nullable
  | star _ => true

/-- The expression matching what remains after reading `c`. -/
def deriv : Regex → Char → Regex
  | nothing, _ => nothing
  | empty, _ => nothing
  | cls p, c => if p c then empty else nothing
  | seq a b, c =>
    if a.nullable then alt (seq (a.deriv c) b) (b.deriv c) else seq (a.deriv c) b
  | alt a b, c => alt (a.deriv c) (b.deriv c)
  | star a, c => seq (a.deriv c) (star a)

/-- The method `RegExp.prototype.test` for an expression anchored by `^` and `$`
(without the multiline flag): the whole string has to match. -/
def test (r : Regex) (s : JsString) : Bool := (s.foldl deriv r).nullable

/-- One or more repetitions, written `a+`. -/
def plus (a : Regex) : Regex := seq a (star a)

/-- Zero or one occurrence, written `a?`. -/
def opt (a : Regex) : Regex := alt a empty

/-- A single literal character. -/
def chr (c : Char) : Regex := cls (fun d => d == c)

end Regex

/-- The class `\w` (no unicode or ignore-case flag): `[A-Za-z0-9_]`. -/
def isWordChar (c : Char) : Bool :=
  let n := c.toNat
  (0x30 ≤ n && n ≤ 0x39) || (0x41 ≤ n && n ≤ 0x5A) || (0x61 ≤ n && n ≤ 0x7A) || n == 0x5F

/-- The expression `/^\w+([.-]?\w+)*@\w+([.-]?\w+)*(\.\w{2,3})+$/` of `User.js`. -/
def emailPattern : Regex :=
  let w := Regex.cls isWordChar
  let sep := Regex.opt (Regex.cls (fun c => c == '.' || c == '-'))
  let part := Regex.seq (Regex.plus w) (Regex.star (Regex.seq sep (Regex.plus w)))
  let tld := Regex.seq (Regex.chr '.') (Regex.seq w (Regex.seq w (Regex.opt w)))
  Regex.seq part (Regex.seq (Regex.chr '@') (Regex.seq part (Regex.plus tld)))

/-! ## Body values and casting -/

/-- A value of a key of a parsed JSON body. -/
inductive JsValue where
  | null : JsValue
  | bool (b : Bool) : JsValue
  | num (n : Int) : JsValue
  | str (s : JsString) : JsValue
  | arr : JsValue
deriving DecidableEq

/-- A path of a document: not set, set to `null`, or set to a value. -/
inductive Field (α : Type) where
  | absent : Field α
  | null : Field α
  | val (a : α) : Field α
deriving DecidableEq

/-- Apply a function to the value of a path, if it has one. -/
def Field.map {α β : Type} (f : α → β) : Field α → Field β
  | .absent => .absent
  | .null => .null
  | .val a => .val (f a)

/-- Cast to `String`: `null` is kept, a string is itself, a number or boolean is
printed, an array is refused.  `none` stands for a thrown `CastError`.  A
number is printed in full decimal, which is its printed form up to 2^53; the
rounded and exponent forms of larger numbers are not modelled. -/
def castString : JsValue → Option (Field JsString)
  | .null => some .null
  | .str s => some (.val s)
  | .num n => some (.val (toString n).toList)
  | .bool b => some (.val (toString b).toList)
  | .arr => none

/-- Cast to `Number`: `null` is kept, the empty string becomes `null`, a string
or boolean goes through `Number(..)` and is refused when that is `NaN`, an array
is refused.  `none` stands for a thrown `CastError`. -/
def castNumber : JsValue → Option (Field Int)
  | .null => some .null
  | .num n => some (.val n)
  | .bool b => some (.val (if b then 1 else 0))
  | .str s => if s = [] then some .null else (stringToNumber s).map Field.val
  | .arr => none

/-- The 24 hexadecimal digits of an identifier, read as a number. -/
def hexValue : JsString → Nat → Option Nat
  | [], acc => some acc
  | c :: cs, acc =>
    let n := c.toNat
    if 0x30 ≤ n ∧ n ≤ 0x39 then hexValue cs (16 * acc + (n - 0x30))
    else if 0x61 ≤ n ∧ n ≤ 0x66 then hexValue cs (16 * acc + (n - 0x61 + 10))
    else if 0x41 ≤ n ∧ n ≤ 0x46 then hexValue cs (16 * acc + (n - 0x41 + 10))
    else none

/-- Cast of a route parameter to `ObjectId`: a string of 24 hexadecimal digits.
`none` stands for a thrown `CastError`. -/
def castObjectId (s : JsString) : Option Nat :=
  if s.length = 24 then hexValue s 0 else none

/-! ## Errors thrown by the mapper and the store driver -/

/-- The errors the handlers distinguish, by `name` and by `code`. -/
inductive MongooseError where
  | validationError (errors : List (String × String)) : MongooseError
  | castError (path : String) : MongooseError
  | mongoServerError (code : Nat) (message : String) : MongooseError
deriving DecidableEq

namespace MongooseError

/-- The property `error.name`. -/
def name : MongooseError → String
  | validationError _ => "ValidationError"
  | castError _ => "CastError"
  | mongoServerError _ _ => "MongoServerError"

/-- The property `error.code`, present on store errors only. -/
def code : MongooseError → Option Nat
  | mongoServerError c _ => some c
  | _ => none

/-- The property `error.errors`: one entry per failing path, keyed by the path. -/
def errors : MongooseError → List (String × String)
  | validationError es => es
  | _ => []

/-- The property `error.message`. -/
def message : MongooseError → String
  | validationError _ => "User validation failed"
  | castError p => "Cast failed at path " ++ p
  | mongoServerError _ m => m

end MongooseError

/-- Message of the `CastError` recorded for a path of a new document. -/
def castMessage (kind path : String) : String :=
  "Cast to " ++ kind ++ " failed at path " ++ path

/-! ## Schema types -/

/-- Options of a path of type `String`. -/
structure SchemaString where
  path : String
  required : Option String := none
  unique : Bool := false
  trim : Bool := false
  lowercase : Bool := false
  maxlength : Option (Nat × String) := none
  matchRegExp : Option (Regex × String) := none

/-- Options of a path of type `Number`. -/
structure SchemaNumber where
  path : String
  min : Option (Int × String) := none
  max : Option (Int × String) := none

namespace SchemaString

/-- Cast, then run the setters: `lowercase`, then `trim`. -/
def applySetters (t : SchemaString) (v : JsValue) : Option (Field JsString) :=
  (castString v).map (Field.map (fun s =>
    let s1 := if t.lowercase then toLowerCase s else s
    if t.trim then UserService.trim s1 else s1))

/-- The check behind `required` on a string path: a string of non-zero length. -/
def checkRequired : Field JsString → Bool
  | .val s => s.length != 0
  | _ => false

/-- The validators of the path with their messages, `required` first.  The
validators other than `required` accept `null` and unset paths; `match`
accepts the empty string. -/
def validators (t : SchemaString) : List ((Field JsString → Bool) × String) :=
  (match t.required with
    | some m => [(checkRequired, m)]
    | none => []) ++
  (match t.maxlength with
    | some (n, m) => [(fun f => match f with
        | .val s => decide (jsLength s ≤ n)
        | _ => true, m)]
    | none => []) ++
  (match t.matchRegExp with
    | some (r, m) => [(fun f => match f with
        | .val s => s.length == 0 || r.test s
        | _ => true, m)]
    | none => [])

/-- Run the validators; the message of the first one that fails. -/
def doValidate (t : SchemaString) (f : Field JsString) : Option String :=
  (t.validators.find? (fun v => !v.1 f)).map (fun v => v.2)

end SchemaString

namespace SchemaNumber

/-- Cast to a number (a number path has no setters in this schema). -/
def applySetters (_t : SchemaNumber) (v : JsValue) : Option (Field Int) :=
  castNumber v

/-- The validators of the path with their messages; both accept `null` and
unset paths. -/
def validators (t : SchemaNumber) : List ((Field Int → Bool) × String) :=
  (match t.min with
    | some (n, m) => [(fun f => match f with
        | .val a => decide (n ≤ a)
        | _ => true, m)]
    | none => []) ++
  (match t.max with
    | some (n, m) => [(fun f => match f with
        | .val a => decide (a ≤ n)
        | _ => true, m)]
    | none => [])

/-- Run the validators; the message of the first one that fails. -/
def doValidate (t : SchemaNumber) (f : Field Int) : Option String :=
  (t.validators.find? (fun v => !v.1 f)).map (fun v => v.2)

end SchemaNumber

/-- The shape of the schema declared in `User.js`. -/
structure UserSchema where
  name : SchemaString
  email : SchemaString
  age : SchemaNumber
  city : SchemaString
  timestamps : Bool

/-- The schema of `User.js`. -/
def userSchema : UserSchema where
  name := {
    path := "name"
    required := some "Name is required"
    trim := true
    maxlength := some (50, "Name cannot exceed 50 characters") }
  email := {
    path := "email"
    required := some "Email is required"
    unique := true
    trim := true
    lowercase := true
    matchRegExp := some (emailPattern, "Please enter a valid email") }
  age := {
    path := "age"
    min := some (0, "Age cannot be negative")
    max := some (120, "Age cannot exceed 120") }
  city := {
    path := "city"
    trim := true }
  timestamps := true

/-! ## Documents and the store -/

/-- A persisted user. -/
structure User where
  _id : Nat
  name : Field JsString
  email : Field JsString
  age : Field Int
  city : Field JsString
  createdAt : Nat
  updatedAt : Nat
deriving DecidableEq

/-- The collection, in insertion order, and the state of the identifier
generator of the driver. -/
structure Db where
  users : List User
  nextObjectId : Nat
deriving DecidableEq

/-- The body of a create request: the value of each user key, if the key is
there.  The body is taken to carry no other path that the schema declares
(`_id`, `createdAt`, `updatedAt`, `__v`). -/
structure Body where
  name : Option JsValue := none
  email : Option JsValue := none
  age : Option JsValue := none
  city : Option JsValue := none
deriving DecidableEq

/-- The body of an update request: user keys at the top level, and the
argument of the store operator `$inc` on `age`, if given. -/
structure UpdateBody where
  name : Option JsValue := none
  email : Option JsValue := none
  age : Option JsValue := none
  city : Option JsValue := none
  incAge : Option JsValue := none
deriving DecidableEq

/-- A document under construction: for each path the value set, or `none` when
the cast of the given value failed and a `CastError` was recorded for it. -/
structure Document where
  _id : Nat
  name : Option (Field JsString)
  email : Option (Field JsString)
  age : Option (Field Int)
  city : Option (Field JsString)
deriving DecidableEq

/-- Set a path of a new document from a body key. -/
def setPath {α : Type} (cast : JsValue → Option (Field α)) :
    Option JsValue → Option (Field α)
  | none => some .absent
  | some v => cast v

/-- The constructor `new User(req.body)`: draws a fresh identifier and sets
each path through its setters. -/
def User.new (db : Db) (body : Body) : Db × Document :=
  ({ db with nextObjectId := db.nextObjectId + 1 },
   { _id := db.nextObjectId
     name := setPath userSchema.name.applySetters body.name
     email := setPath userSchema.email.applySetters body.email
     age := setPath userSchema.age.applySetters body.age
     city := setPath userSchema.city.applySetters body.city })

/-- The entry of `errors` for one path, if any: the recorded `CastError`, or
else the first failing validator. -/
def pathError {α : Type} (path kind : String) (validate : Field α → Option String) :
    Option (Field α) → List (String × String)
  | none => [(path, castMessage kind path)]
  | some f =>
    match validate f with
    | some m => [(path, m)]
    | none => []

/-- Validation of a document before it is saved. -/
def Document.validate (doc : Document) : List (String × String) :=
  pathError "name" "string" userSchema.name.doValidate doc.name ++
  pathError "email" "string" userSchema.email.doValidate doc.email ++
  pathError "age" "Number" userSchema.age.doValidate doc.age ++
  pathError "city" "string" userSchema.city.doValidate doc.city

/-- The record written for a document. -/
def Document.toUser (doc : Document) (now : Nat) : User where
  _id := doc._id
  name := doc.name.getD .absent
  email := doc.email.getD .absent
  age := doc.age.getD .absent
  city := doc.city.getD .absent
  createdAt := now
  updatedAt := now

/-- The store's insert under the unique index that `unique: true` declares on
`email`. -/
def insertOne (db : Db) (u : User) : Except MongooseError (Db × User) :=
  if (userSchema.email.unique && db.users.any (fun v => decide (v.email = u.email))) = true then
    .error (.mongoServerError 11000 "E11000 duplicate key error")
  else
    .ok ({ db with users := db.users ++ [u] }, u)

/-- The method `save`: validate, then insert. -/
def Document.save (doc : Document) (db : Db) (now : Nat) :
    Except MongooseError (Db × User) :=
  match doc.validate with
  | [] => insertOne db (doc.toUser now)
  | e :: es => .error (.validationError (e :: es))

/-- The query `User.find()`. -/
def User.find (db : Db) : Except MongooseError (List User) :=
  .ok db.users

/-- The update after casting: the entries of `$set` and of `$inc`. -/
structure CastedUpdate where
  name : Option (Field JsString)
  email : Option (Field JsString)
  age : Option (Field Int)
  city : Option (Field JsString)
  incAge : Option (Field Int)
deriving DecidableEq

/-- Cast one top-level key of an update; a failure is thrown as a `CastError`. -/
def castUpdateVal {α : Type} (path : String) (cast : JsValue → Option (Field α)) :
    Option JsValue → Except MongooseError (Option (Field α))
  | none => .ok none
  | some v =>
    match cast v with
    | some f => .ok (some f)
    | none => .error (.castError path)

/-- Cast the argument of `$inc`: `null` is refused, anything else is cast to a
number. -/
def castIncVal (path : String) : Option JsValue → Except MongooseError (Option (Field Int))
  | none => .ok none
  | some .null => .error (.castError path)
  | some v =>
    match castNumber v with
    | some f => .ok (some f)
    | none => .error (.castError path)

/-- Casting of the update document: top-level keys are moved under `$set` and
cast through the setters of their paths. -/
def castUpdate (u : UpdateBody) : Except MongooseError CastedUpdate := do
  let name ← castUpdateVal "name" userSchema.name.applySetters u.name
  let email ← castUpdateVal "email" userSchema.email.applySetters u.email
  let age ← castUpdateVal "age" userSchema.age.applySetters u.age
  let city ← castUpdateVal "city" userSchema.city.applySetters u.city
  let incAge ← castIncVal "age" u.incAge
  return { name := name, email := email, age := age, city := city, incAge := incAge }

/-- The entry of `errors` for a path of `$set`, if the path is there and a
validator fails. -/
def updatePathError {α : Type} (path : String) (validate : Field α → Option String) :
    Option (Field α) → List (String × String)
  | none => []
  | some f =>
    match validate f with
    | some m => [(path, m)]
    | none => []

/-- Update validators (`runValidators: true`): they run on the paths of `$set`
and not on those of `$inc`. -/
def updateValidators (c : CastedUpdate) : List (String × String) :=
  updatePathError "name" userSchema.name.doValidate c.name ++
  updatePathError "email" userSchema.email.doValidate c.email ++
  updatePathError "age" userSchema.age.doValidate c.age ++
  updatePathError "city" userSchema.city.doValidate c.city

/-- The store operator `$inc` on one path: an unset path is set to the
increment, a number is incremented, `null` is refused. -/
def applyInc : Field Int → Int → Option (Field Int)
  | .absent, k => some (.val k)
  | .val a, k => some (.val (a + k))
  | .null, _ => none

/-- The record after the store has applied the update to `u`; `updatedAt` is
set by the `timestamps` option. -/
def applyUpdate (u : User) (c : CastedUpdate) (now : Nat) : Except MongooseError User :=
  let age : Option (Field Int) :=
    match c.incAge with
    | some (.val k) => applyInc u.age k
    | _ => some (c.age.getD u.age)
  match age with
  | none => .error (.mongoServerError 14 "Cannot apply $inc to a value of non-numeric type")
  | some a =>
    .ok { u with
      name := c.name.getD u.name
      email := c.email.getD u.email
      age := a
      city := c.city.getD u.city
      updatedAt := now }

/-- Replace the first record with the given identifier. -/
def replaceById (id : Nat) (new : User) : List User → List User
  | [] => []
  | v :: vs => if v._id = id then new :: vs else v :: replaceById id new vs

/-- The store's `findOneAndUpdate` by identifier, returning the new record:
the update document is checked, the record is looked up, the operators are
applied, and the unique index on `email` is maintained. -/
def findOneAndUpdate (db : Db) (id : Nat) (c : CastedUpdate) (now : Nat) :
    Except MongooseError (Db × Option User) :=
  if c.age.isSome ∧ c.incAge.isSome then
    .error (.mongoServerError 40 "Updating the path age would create a conflict at age")
  else if c.incAge = some .null then
    .error (.mongoServerError 14 "Cannot increment with non-numeric argument")
  else
    match db.users.find? (fun v => decide (v._id = id)) with
    | none => .ok (db, none)
    | some u =>
      match applyUpdate u c now with
      | .error e => .error e
      | .ok new =>
        if new.email ≠ u.email ∧
            (userSchema.email.unique &&
              db.users.any (fun v => decide (v._id ≠ id) && decide (v.email = new.email))) = true then
          .error (.mongoServerError 11000 "E11000 duplicate key error")
        else
          .ok ({ db with users := replaceById id new db.users }, some new)

/-- The query `User.findByIdAndUpdate(id, body)` with options `new` and
`runValidators`: cast the identifier, cast the update, run the update
validators, then hand the update to the store. -/
def User.findByIdAndUpdate (db : Db) (id : JsString) (update : UpdateBody) (now : Nat) :
    Except MongooseError (Db × Option User) :=
  match castObjectId id with
  | none => .error (.castError "_id")
  | some oid =>
    match castUpdate update with
    | .error e => .error e
    | .ok c =>
      match updateValidators c with
      | [] => findOneAndUpdate db oid c now
      | e :: es => .error (.validationError (e :: es))

/-- The query `User.findByIdAndDelete(id)`. -/
def User.findByIdAndDelete (db : Db) (id : JsString) :
    Except MongooseError (Db × Option User) :=
  match castObjectId id with
  | none => .error (.castError "_id")
  | some oid =>
    match db.users.find? (fun v => decide (v._id = oid)) with
    | none => .ok (db, none)
    | some u => .ok ({ db with users := db.users.eraseP (fun v => decide (v._id = oid)) }, some u)

/-! ## Responses and route handlers -/

/-- The `data` member of a response body. -/
inductive Data where
  | none : Data
  | one (u : User) : Data
  | many (us : List User) : Data
deriving DecidableEq

/-- The status code and the members of the JSON body of a response. -/
structure Response where
  status : Nat
  success : Bool
  message : Option String := none
  errors : Option (List String) := none
  count : Option Nat := none
  data : Data := Data.none
  error : Option String := none
deriving DecidableEq

/-- The handler of `GET /api/users`. -/
def getUsers (db : Db) : Db × Response :=
  match User.find db with
  | .ok users =>
    (db, { status := 200, success := true, count := some users.length, data := .many users })
  | .error error =>
    (db, { status := 500, success := false, message := some "Server error while fetching users",
           error := some error.message })

/-- The handler of `POST /api/users`. -/
def postUsers (db : Db) (now : Nat) (body : Body) : Db × Response :=
  let (db1, user) := User.new db body
  match user.save db1 now with
  | .ok (db2, savedUser) =>
    (db2, { status := 201, success := true, data := .one savedUser })
  | .error error =>
    if error.name = "ValidationError" then
      let errors := error.errors.map (fun err => err.2)
      (db1, { status := 400, success := false, message := some "Validation error",
              errors := some errors })
    else if error.code = some 11000 then
      (db1, { status := 400, success := false, message := some "Email already exists" })
    else
      (db1, { status := 500, success := false, message := some "Server error while creating user",
              error := some error.message })

/-- The handler of `PUT /api/users/:id`. -/
def putUser (db : Db) (now : Nat) (userId : JsString) (body : UpdateBody) : Db × Response :=
  match User.findByIdAndUpdate db userId body now with
  | .ok (db1, none) =>
    (db1, { status := 404, success := false, message := some "User not found" })
  | .ok (db1, some updatedUser) =>
    (db1, { status := 200, success := true, data := .one updatedUser })
  | .error error =>
    if error.name = "ValidationError" then
      let errors := error.errors.map (fun err => err.2)
      (db, { status := 400, success := false, message := some "Validation error",
             errors := some errors })
    else if error.name = "CastError" then
      (db, { status := 400, success := false, message := some "Invalid user ID format" })
    else
      (db, { status := 500, success := false, message := some "Server error while updating user",
             error := some error.message })

/-- The handler of `DELETE /api/users/:id`. -/
def deleteUser (db : Db) (userId : JsString) : Db × Response :=
  match User.findByIdAndDelete db userId with
  | .ok (db1, none) =>
    (db1, { status := 404, success := false, message := some "User not found" })
  | .ok (db1, some deletedUser) =>
    (db1, { status := 200, success := true, message := some "User deleted successfully",
            data := .one deletedUser })
  | .error error =>
    if error.name = "CastError" then
      (db, { status := 400, success := false, message := some "Invalid user ID format" })
    else
      (db, { status := 500, success := false, message := some "Server error while deleting user",
             error := some error.message })

/-! ## The constraints of the data model, in the words of the specification -/

/-- The value kept for a text key: the cast value, trimmed. -/
def normalizedText (v : JsValue) : Option (Field JsString) :=
  (castString v).map (Field.map trim)

/-- The value kept for `email`: the cast value, lower-cased and trimmed. -/
def normalizedEmail (v : JsValue) : Option (Field JsString) :=
  (castString v).map (Field.map (fun s => trim (toLowerCase s)))

/-- The constraint on `name`: text, required, after trimming not empty and of
length at most 50. -/
def nameOk : Option JsValue → Bool
  | none => false
  | some v =>
    match normalizedText v with
    | some (.val s) => s.length != 0 && decide (jsLength s ≤ 50)
    | _ => false

/-- The constraint on `email`: text, required, after trimming and lower-casing
not empty and matching the pattern. -/
def emailOk : Option JsValue → Bool
  | none => false
  | some v =>
    match normalizedEmail v with
    | some (.val s) => s.length != 0 && emailPattern.test s
    | _ => false

/-- The constraint on `age`: optional number, if present between 0 and 120. -/
def ageOk : Option JsValue → Bool
  | none => true
  | some v =>
    match castNumber v with
    | some (.val a) => decide (0 ≤ a) && decide (a ≤ 120)
    | some _ => true
    | none => false

/-- The constraint on `city`: optional text. -/
def cityOk : Option JsValue → Bool
  | none => true
  | some v => (castString v).isSome

/-- The email of the body is not the email of a stored user. -/
def emailFresh (db : Db) (v : Option JsValue) : Bool :=
  match v.bind normalizedEmail with
  | some e => !db.users.any (fun u => decide (u.email = e))
  | none => true

/-- The keys of a create body that violate the data model. -/
def offending (body : Body) : List String :=
  (if nameOk body.name then [] else ["name"]) ++
  (if emailOk body.email then [] else ["email"]) ++
  (if ageOk body.age then [] else ["age"]) ++
  (if cityOk body.city then [] else ["city"])

/-- The keys among `name`, `email` and `age` that violate the data model. -/
def offendingOfThree (body : Body) : List String :=
  (if nameOk body.name then [] else ["name"]) ++
  (if emailOk body.email then [] else ["email"]) ++
  (if ageOk body.age then [] else ["age"])

/-- A text key whose conversion to a string is exact: any value but a number of
magnitude 2^53 or more. -/
def exactText : Option JsValue → Bool
  | some (.num n) => decide (n.natAbs < 9007199254740992)
  | _ => true

/-- An `age` key whose conversion to a number is exact: any value but a
string. -/
def exactAge : Option JsValue → Bool
  | some (.str _) => false
  | _ => true

/-- The create bodies on which no validator depends on a conversion through
floating point: `name` is not a number of magnitude 2^53 or more, and `age` is
not a string.  (A number given as `email` fails the pattern however it is
printed, and one given as `city` is accepted however it is printed.) -/
def exactBody (body : Body) : Bool :=
  exactText body.name && exactAge body.age

/-- A valid update body: each key that is present satisfies the data model,
and an `$inc` on `age`, if any, carries a number and comes without `age`. -/
def updateOk (body : UpdateBody) : Bool :=
  (body.name.isNone || nameOk body.name) &&
  (body.email.isNone || emailOk body.email) &&
  ageOk body.age && cityOk body.city &&
  (match body.incAge with
    | none => true
    | some v =>
      body.age.isNone &&
      (match castNumber v with
        | some (.val _) => true
        | _ => false))

/-- Identifiers and emails are unique in the collection, as the store
guarantees through the primary index and the unique index on `email`. -/
def Db.wellFormed (db : Db) : Prop :=
  (db.users.map (fun u => u._id)).Nodup ∧ (db.users.map (fun u => u.email)).Nodup

instance (db : Db) : Decidable db.wellFormed := by
  unfold Db.wellFormed
  infer_instance

/-- Identifiers and emails are unique, and every identifier in use was drawn
from the generator. -/
def Db.consistent (db : Db) : Prop :=
  db.wellFormed ∧ ∀ u ∈ db.users, u._id < db.nextObjectId

/-- A persisted `name`: a non-empty trimmed string of length at most 50. -/
def nameValid (f : Field JsString) : Bool :=
  match f with
  | .val s => s.length != 0 && decide (trim s = s) && decide (jsLength s ≤ 50)
  | _ => false

/-- A persisted `email`: a trimmed lower-cased string matching the pattern. -/
def emailValid (f : Field JsString) : Bool :=
  match f with
  | .val e => decide (trim e = e) && decide (toLowerCase e = e) && emailPattern.test e
  | _ => false

/-- A persisted `age`: absent (unset or `null`) or between 0 and 120. -/
def ageValid (f : Field Int) : Bool :=
  match f with
  | .val a => decide (0 ≤ a) && decide (a ≤ 120)
  | _ => true

/-- The constraints of the data model on a persisted user. -/
def userValid (u : User) : Bool :=
  nameValid u.name && emailValid u.email && ageValid u.age

/-- Store validity: every persisted user is valid, and no two share an email
or an identifier. -/
def storeValid (db : Db) : Bool :=
  db.users.all userValid && decide db.wellFormed

/-! ## Sequences of requests -/

/-- A request to the service. -/
inductive Request where
  | list : Request
  | create (now : Nat) (body : Body) : Request
  | update (now : Nat) (userId : JsString) (body : UpdateBody) : Request
  | delete (userId : JsString) : Request

/-- Dispatch of a request to its route handler. -/
def handle (db : Db) : Request → Db × Response
  | .list => getUsers db
  | .create now body => postUsers db now body
  | .update now userId body => putUser db now userId body
  | .delete userId => deleteUser db userId

/-- The store after a sequence of requests, starting from the empty store. -/
def run (reqs : List Request) : Db :=
  reqs.foldl (fun db r => (handle db r).1) { users := [], nextObjectId := 0 }

/-- A request whose body carries no store operator. -/
def Request.plain : Request → Bool
  | .update _ _ body => body.incAge.isNone
  | _ => true

/-! ## Auxiliary definitions for the proofs -/

/-- The entries of `errors` contributed by the key `name` of a create body. -/
def nameErrors (v : Option JsValue) : List (String × String) :=
  pathError "name" "string" userSchema.name.doValidate (setPath userSchema.name.applySetters v)

/-- The entries of `errors` contributed by the key `email` of a create body. -/
def emailErrors (v : Option JsValue) : List (String × String) :=
  pathError "email" "string" userSchema.email.doValidate
    (setPath userSchema.email.applySetters v)

/-- The entries of `errors` contributed by the key `age` of a create body. -/
def ageErrors (v : Option JsValue) : List (String × String) :=
  pathError "age" "Number" userSchema.age.doValidate (setPath userSchema.age.applySetters v)

/-- The entries of `errors` contributed by the key `city` of a create body. -/
def cityErrors (v : Option JsValue) : List (String × String) :=
  pathError "city" "string" userSchema.city.doValidate (setPath userSchema.city.applySetters v)

/-- The update document a body is cast to, when no cast fails. -/
def castedOf (body : UpdateBody) : CastedUpdate where
  name := body.name.bind normalizedText
  email := body.email.bind normalizedEmail
  age := body.age.bind castNumber
  city := body.city.bind normalizedText
  incAge := body.incAge.bind castNumber

/-! ## Sample data -/

/-- The empty store. -/
def emptyDb : Db := { users := [], nextObjectId := 0 }

/-- A create body for Ann with the given `age` key. -/
def annBody (age : Option JsValue) : Body :=
  { name := some (.str "Ann".toList)
    email := some (.str "ann@example.com".toList)
    age := age }

/-- A create body for Bob. -/
def bobBody : Body :=
  { name := some (.str "Bob".toList)
    email := some (.str "bob@example.com".toList)
    city := some (.str "Oslo".toList) }

/-- The record of Ann, created at time 1 with age 120, as the first user. -/
def annUser : User :=
  { _id := 0
    name := .val "Ann".toList
    email := .val "ann@example.com".toList
    age := .val 120
    city := .absent
    createdAt := 1
    updatedAt := 1 }

/-- The record of Bob, created at time 2 as the second user. -/
def bobUser : User :=
  { _id := 1
    name := .val "Bob".toList
    email := .val "bob@example.com".toList
    age := .absent
    city := .val "Oslo".toList
    createdAt := 2
    updatedAt := 2 }

/-- The store after Ann has been created. -/
def annDb : Db := (postUsers emptyDb 1 (annBody (some (.num 120)))).1

/-- The store after Ann and Bob have been created. -/
def annBobDb : Db := (postUsers annDb 2 bobBody).1

/-- The route parameter naming the first identifier drawn. -/
def firstId : JsString := "000000000000000000000000".toList

/-- The route parameter naming the second identifier drawn. -/
def secondId : JsString := "000000000000000000000001".toList

/-- A create body with valid name and email, no age, and an array as `city`. -/
def arrayCityBody : Body :=
  { name := some (.str "Ann".toList)
    email := some (.str "ann@example.com".toList)
    city := some .arr }

/-- A create body in which every key violates the data model. -/
def allBadBody : Body :=
  { email := some (.str "not-an-email".toList)
    age := some (.num 200)
    city := some .arr }

/-- A create body whose email has no `@`. -/
def notAnEmailBody : Body :=
  { name := some (.str "Ann".toList)
    email := some (.str "not-an-email".toList) }

/-- A create body with the email of Ann in other letter case, between blanks. -/
def annaBody : Body :=
  { name := some (.str "Anna".toList)
    email := some (.str "  ANN@Example.COM ".toList) }

/-- The update body with the key `city` only. -/
def parisUpdate : UpdateBody :=
  { city := some (.str "Paris".toList) }

/-- The update body with the operator `$inc` on `age` only. -/
def incUpdate : UpdateBody :=
  { incAge := some (.num 1) }

/-- The update body whose `age` is a string that is not a number. -/
def badAgeUpdate : UpdateBody :=
  { age := some (.str "abc".toList) }

/-- The update body with the email of Bob in other letter case. -/
def bobEmailUpdate : UpdateBody :=
  { email := some (.str " Bob@Example.com".toList) }


/-! # Theorems -/

/-! ## The schema, path by path -/

theorem name_doValidate_val (s : JsString) :
    userSchema.name.doValidate (.val s) =
        if s = [] then some "Name is required"
        else if jsLength s ≤ 50 then none else some "Name cannot exceed 50 characters" := by
  by_cases h : s = []
  · subst h
    simp [SchemaString.doValidate, SchemaString.validators, userSchema,
      SchemaString.checkRequired, List.find?]
  · have hb : (s.length != 0) = true := by simpa using h
    by_cases h2 : jsLength s ≤ 50
    · have hd : decide (jsLength s ≤ 50) = true := by simpa using h2
      simp [SchemaString.doValidate, SchemaString.validators, userSchema,
        SchemaString.checkRequired, List.find?, h, h2, hb, hd]
    · have hd : decide (jsLength s ≤ 50) = false := by simpa using h2
      simp [SchemaString.doValidate, SchemaString.validators, userSchema,
        SchemaString.checkRequired, List.find?, h, h2, hb, hd]

theorem name_doValidate_null : userSchema.name.doValidate .null = some "Name is required" := by
  simp [SchemaString.doValidate, SchemaString.validators, userSchema,
      SchemaString.checkRequired, List.find?]

theorem name_doValidate_absent : userSchema.name.doValidate .absent = some "Name is required" := by
  simp [SchemaString.doValidate, SchemaString.validators, userSchema,
      SchemaString.checkRequired, List.find?]

theorem email_doValidate_val (s : JsString) :
    userSchema.email.doValidate (.val s) =
        if s = [] then some "Email is required"
        else if emailPattern.test s = true then none else some "Please enter a valid email" := by
  by_cases h : s = []
  · subst h
    simp [SchemaString.doValidate, SchemaString.validators, userSchema,
      SchemaString.checkRequired, List.find?]
  · have hb : (s.length != 0) = true := by simpa using h
    have hb2 : (s.length == 0) = false := by simpa using h
    by_cases h2 : emailPattern.test s = true
    · simp [SchemaString.doValidate, SchemaString.validators, userSchema,
        SchemaString.checkRequired, List.find?, h, h2, hb, hb2]
    · have h3 : emailPattern.test s = false := by simpa using h2
      simp [SchemaString.doValidate, SchemaString.validators, userSchema,
        SchemaString.checkRequired, List.find?, h, hb, hb2, h3]

theorem email_doValidate_null : userSchema.email.doValidate .null = some "Email is required" := by
  simp [SchemaString.doValidate, SchemaString.validators, userSchema,
      SchemaString.checkRequired, List.find?]

theorem email_doValidate_absent : userSchema.email.doValidate .absent = some "Email is required" := by
  simp [SchemaString.doValidate, SchemaString.validators, userSchema,
      SchemaString.checkRequired, List.find?]

theorem age_doValidate_val (a : Int) :
    userSchema.age.doValidate (.val a) =
        if a < 0 then some "Age cannot be negative"
        else if 120 < a then some "Age cannot exceed 120" else none := by
  by_cases h : a < 0
  · have hd : decide (0 ≤ a) = false := by simpa using h
    simp [SchemaNumber.doValidate, SchemaNumber.validators, userSchema, List.find?, h, hd]
  · have hd : decide (0 ≤ a) = true := by simpa using h
    by_cases h2 : 120 < a
    · have hd2 : decide (a ≤ 120) = false := by simpa using h2
      simp [SchemaNumber.doValidate, SchemaNumber.validators, userSchema, List.find?, h, h2,
        hd, hd2]
    · have hd2 : decide (a ≤ 120) = true := by simpa using h2
      simp [SchemaNumber.doValidate, SchemaNumber.validators, userSchema, List.find?, h, h2,
        hd, hd2]

theorem age_doValidate_null : userSchema.age.doValidate .null = none := by
  simp [SchemaNumber.doValidate, SchemaNumber.validators, userSchema, List.find?]

theorem age_doValidate_absent : userSchema.age.doValidate .absent = none := by
  simp [SchemaNumber.doValidate, SchemaNumber.validators, userSchema, List.find?]

theorem city_doValidate (f : Field JsString) : userSchema.city.doValidate f = none := by
  simp [SchemaString.doValidate, SchemaString.validators, userSchema, List.find?]

theorem name_applySetters (v : JsValue) : userSchema.name.applySetters v = normalizedText v := by
  simp [SchemaString.applySetters, userSchema, normalizedText]

theorem city_applySetters (v : JsValue) : userSchema.city.applySetters v = normalizedText v := by
  simp [SchemaString.applySetters, userSchema, normalizedText]

theorem email_applySetters (v : JsValue) : userSchema.email.applySetters v = normalizedEmail v := by
  simp [SchemaString.applySetters, userSchema, normalizedEmail]

theorem email_unique : userSchema.email.unique = true := rfl

theorem age_applySetters (v : JsValue) : userSchema.age.applySetters v = castNumber v := rfl

/-! ## Creating a user -/

theorem validate_new (db : Db) (body : Body) :
    (User.new db body).2.validate =
      nameErrors body.name ++ emailErrors body.email ++ ageErrors body.age ++
        cityErrors body.city := rfl

theorem nameErrors_length (v : Option JsValue) :
    (nameErrors v).length = if nameOk v = true then 0 else 1 := by
  have aux : ∀ x : Option (Field JsString),
      (pathError "name" "string" userSchema.name.doValidate x).length =
        if (match x with
          | some (.val s) => s.length != 0 && decide (jsLength s ≤ 50)
          | _ => false) = true then 0 else 1 := by
    intro x
    rcases x with _ | _ | _ | s
    · simp [pathError]
    · simp [pathError, name_doValidate_absent]
    · simp [pathError, name_doValidate_null]
    · simp only [pathError, name_doValidate_val]
      by_cases h1 : s = [] <;> by_cases h2 : jsLength s ≤ 50 <;> simp [h1, h2]
  cases v with
  | none => simp [nameErrors, nameOk, setPath, pathError, name_doValidate_absent]
  | some v => exact aux _

theorem emailErrors_length (v : Option JsValue) :
    (emailErrors v).length = if emailOk v = true then 0 else 1 := by
  have aux : ∀ x : Option (Field JsString),
      (pathError "email" "string" userSchema.email.doValidate x).length =
        if (match x with
          | some (.val s) => s.length != 0 && emailPattern.test s
          | _ => false) = true then 0 else 1 := by
    intro x
    rcases x with _ | _ | _ | s
    · simp [pathError]
    · simp [pathError, email_doValidate_absent]
    · simp [pathError, email_doValidate_null]
    · simp only [pathError, email_doValidate_val]
      by_cases h1 : s = [] <;> by_cases h2 : emailPattern.test s = true <;> simp [h1, h2]
  cases v with
  | none => simp [emailErrors, emailOk, setPath, pathError, email_doValidate_absent]
  | some v => exact aux _

theorem ageErrors_length (v : Option JsValue) :
    (ageErrors v).length = if ageOk v = true then 0 else 1 := by
  have aux : ∀ x : Option (Field Int),
      (pathError "age" "Number" userSchema.age.doValidate x).length =
        if (match x with
          | some (.val a) => decide (0 ≤ a) && decide (a ≤ 120)
          | some _ => true
          | none => false) = true then 0 else 1 := by
    intro x
    rcases x with _ | _ | _ | a
    · simp [pathError]
    · simp [pathError, age_doValidate_absent]
    · simp [pathError, age_doValidate_null]
    · simp only [pathError, age_doValidate_val]
      by_cases h1 : a < 0
      · have h3 : ¬ (0 ≤ a ∧ a ≤ 120) := by omega
        simp [h1, h3]
      · by_cases h2 : 120 < a
        · have h3 : ¬ (0 ≤ a ∧ a ≤ 120) := by omega
          simp [h1, h2, h3]
        · have h3 : 0 ≤ a ∧ a ≤ 120 := by omega
          simp [h1, h2, h3]
  cases v with
  | none => simp [ageErrors, ageOk, setPath, pathError, age_doValidate_absent]
  | some v => exact aux _

theorem cityErrors_length (v : Option JsValue) :
    (cityErrors v).length = if cityOk v = true then 0 else 1 := by
  cases v with
  | none => simp [cityErrors, cityOk, setPath, pathError, city_doValidate]
  | some v =>
    cases v <;> simp [cityErrors, cityOk, setPath, pathError, city_doValidate, castString,
      city_applySetters, normalizedText]

theorem errors_nil_of_length {α : Type} {l : List α} (h : l.length = 0) : l = [] :=
  List.length_eq_zero.mp h

theorem nameErrors_of_ok {v : Option JsValue} (h : nameOk v = true) : nameErrors v = [] :=
  errors_nil_of_length (by rw [nameErrors_length, if_pos h])

theorem emailErrors_of_ok {v : Option JsValue} (h : emailOk v = true) : emailErrors v = [] :=
  errors_nil_of_length (by rw [emailErrors_length, if_pos h])

theorem ageErrors_of_ok {v : Option JsValue} (h : ageOk v = true) : ageErrors v = [] :=
  errors_nil_of_length (by rw [ageErrors_length, if_pos h])

theorem cityErrors_of_ok {v : Option JsValue} (h : cityOk v = true) : cityErrors v = [] :=
  errors_nil_of_length (by rw [cityErrors_length, if_pos h])

/-- The handler of `POST /api/users`, by the outcome of validation and of the
unique index. -/
theorem postUsers_eq (db : Db) (now : Nat) (body : Body) :
    postUsers db now body =
      match (User.new db body).2.validate with
      | [] =>
        if db.users.any (fun v => decide (v.email = ((User.new db body).2.toUser now).email)) then
          ({ db with nextObjectId := db.nextObjectId + 1 },
            { status := 400, success := false, message := some "Email already exists" })
        else
          ({ users := db.users ++ [(User.new db body).2.toUser now],
             nextObjectId := db.nextObjectId + 1 },
            { status := 201, success := true, data := .one ((User.new db body).2.toUser now) })
      | e :: es =>
        ({ db with nextObjectId := db.nextObjectId + 1 },
          { status := 400, success := false, message := some "Validation error",
            errors := some ((e :: es).map (fun err => err.2)) }) := by
  unfold postUsers
  simp only [Document.save]
  cases h : (User.new db body).2.validate with
  | nil =>
    simp only [insertOne, email_unique, Bool.true_and]
    by_cases hd : db.users.any
        (fun v => decide (v.email = ((User.new db body).2.toUser now).email)) = true
    · rw [if_pos hd]
      simp only [User.new] at hd
      simp [User.new, hd, MongooseError.name, MongooseError.code]
    · rw [if_neg hd]
      simp only [User.new] at hd
      simp [User.new, hd]
  | cons e es =>
    simp [User.new, MongooseError.name, MongooseError.errors]

theorem toUser_email (db : Db) (now : Nat) (body : Body) :
    ((User.new db body).2.toUser now).email =
      match body.email with
      | none => .absent
      | some v => (normalizedEmail v).getD .absent := by
  cases h : body.email <;> simp [User.new, Document.toUser, setPath, h, email_applySetters]

theorem ageErrors_none : ageErrors none = [] := by
  simp [ageErrors, setPath, pathError, age_doValidate_absent]

theorem ageErrors_num (a : Int) :
    ageErrors (some (.num a)) =
      if a < 0 then [("age", "Age cannot be negative")]
      else if 120 < a then [("age", "Age cannot exceed 120")] else [] := by
  simp only [ageErrors, setPath, age_applySetters, castNumber, pathError, age_doValidate_val]
  by_cases h1 : a < 0 <;> by_cases h2 : 120 < a <;> simp [h1, h2]

theorem emailOk_fresh {db : Db} (now : Nat) {body : Body} (he : emailOk body.email = true)
    (hf : emailFresh db body.email = true) :
    db.users.any (fun v => decide (v.email = ((User.new db body).2.toUser now).email)) = false := by
  rw [toUser_email]
  cases hb : body.email with
  | none => simp [hb, emailOk] at he
  | some v =>
    cases hn : normalizedEmail v with
    | none => simp [hb, emailOk, hn] at he
    | some e =>
      simp only [emailFresh, hb, Option.bind, hn] at hf
      simpa [hn] using hf

/-- Claim C1, as amended.  For a create body that carries, of the paths the
schema declares, only `name`, `email`, `age` and `city`, whose name and email
are valid, whose city is absent or converts to text, and whose email is not in
the store:
without `age` the user is created (201); with an integer age `a` the user is
created exactly when 0 ≤ a ≤ 120, and otherwise the response is the 400
validation failure carrying `Age cannot be negative` (a < 0) or
`Age cannot exceed 120` (a > 120). -/
theorem create_age_bounds (db : Db) (now : Nat) (body : Body)
    (hn : nameOk body.name = true) (he : emailOk body.email = true)
    (hc : cityOk body.city = true) (hf : emailFresh db body.email = true) :
    (body.age = none → (postUsers db now body).2.status = 201) ∧
    (∀ a : Int, body.age = some (.num a) →
      ((postUsers db now body).2.status = 201 ↔ 0 ≤ a ∧ a ≤ 120) ∧
      (a < 0 →
        (postUsers db now body).2 =
          { status := 400, success := false, message := some "Validation error",
            errors := some ["Age cannot be negative"] }) ∧
      (120 < a →
        (postUsers db now body).2 =
          { status := 400, success := false, message := some "Validation error",
            errors := some ["Age cannot exceed 120"] })) := by
  have hfresh := emailOk_fresh now he hf
  have hv : (User.new db body).2.validate = ageErrors body.age := by
    rw [validate_new, nameErrors_of_ok hn, emailErrors_of_ok he, cityErrors_of_ok hc]
    simp
  refine ⟨?_, ?_⟩
  · intro ha
    rw [postUsers_eq, hv, ha, ageErrors_none]
    simp [hfresh]
  · intro a ha
    rw [postUsers_eq, hv, ha, ageErrors_num]
    by_cases h1 : a < 0
    · simp [h1]
      omega
    · by_cases h2 : 120 < a
      · simp [h1, h2]
      · simp [h1, h2, hfresh]
        omega

theorem postUsers_users_of_invalid {db : Db} (now : Nat) {body : Body}
    (h : (User.new db body).2.validate ≠ []) :
    (postUsers db now body).1.users = db.users ∧
    (postUsers db now body).2 =
      { status := 400, success := false, message := some "Validation error",
        errors := some ((User.new db body).2.validate.map (fun err => err.2)) } := by
  rw [postUsers_eq]
  cases hv : (User.new db body).2.validate with
  | nil => exact absurd hv h
  | cons e es => simp

/-- Claim C2.  When the email of a create body, after lower-casing and
trimming, is not empty and does not match the pattern of the schema, the
response is 400 `Validation error`, its list of errors contains
`Please enter a valid email`, and no record is persisted. -/
theorem create_invalid_email (db : Db) (now : Nat) (body : Body) (v : JsValue) (e : JsString)
    (hb : body.email = some v) (hv : normalizedEmail v = some (.val e))
    (hne : e ≠ []) (hm : emailPattern.test e = false) :
    (postUsers db now body).2.status = 400 ∧
    (postUsers db now body).2.message = some "Validation error" ∧
    (∃ errors, (postUsers db now body).2.errors = some errors ∧
      "Please enter a valid email" ∈ errors) ∧
    (postUsers db now body).1.users = db.users := by
  have hee : emailErrors body.email = [("email", "Please enter a valid email")] := by
    simp [emailErrors, hb, setPath, email_applySetters, hv, pathError, email_doValidate_val,
      hne, hm]
  have hmem : ("email", "Please enter a valid email") ∈ (User.new db body).2.validate := by
    rw [validate_new, hee]
    simp
  have hnil : (User.new db body).2.validate ≠ [] := List.ne_nil_of_mem hmem
  obtain ⟨h1, h2⟩ := postUsers_users_of_invalid now hnil
  refine ⟨by rw [h2], by rw [h2], ⟨_, by rw [h2], ?_⟩, h1⟩
  exact List.mem_map.mpr ⟨_, hmem, rfl⟩

/-- Claim C3.  When the store holds a user with email `e` and an otherwise valid
create body has an email that is `e` after lower-casing and trimming, the
response is 400 `Email already exists` and the collection is unchanged. -/
theorem create_duplicate_email (db : Db) (now : Nat) (body : Body) (u : User) (e : JsString)
    (hu : u ∈ db.users) (hue : u.email = .val e)
    (hn : nameOk body.name = true) (he : emailOk body.email = true)
    (ha : ageOk body.age = true) (hc : cityOk body.city = true)
    (hsame : body.email.bind normalizedEmail = some (.val e)) :
    (postUsers db now body).2 =
      { status := 400, success := false, message := some "Email already exists" } ∧
    (postUsers db now body).1.users = db.users := by
  have hv : (User.new db body).2.validate = [] := by
    rw [validate_new, nameErrors_of_ok hn, emailErrors_of_ok he, ageErrors_of_ok ha,
      cityErrors_of_ok hc]
    rfl
  have hem : ((User.new db body).2.toUser now).email = .val e := by
    rw [toUser_email]
    cases hb : body.email with
    | none => simp [hb] at hsame
    | some v =>
      simp only [hb, Option.bind] at hsame
      simp [hsame]
  have hany : db.users.any
      (fun v => decide (v.email = ((User.new db body).2.toUser now).email)) = true := by
    rw [hem]
    exact List.any_eq_true.mpr ⟨u, hu, by simp [hue]⟩
  rw [postUsers_eq, hv]
  simp [hany]

theorem validate_length (db : Db) (body : Body) :
    (User.new db body).2.validate.length = (offending body).length := by
  rw [validate_new]
  simp only [List.length_append, nameErrors_length, emailErrors_length, ageErrors_length,
    cityErrors_length, offending]
  cases nameOk body.name <;> cases emailOk body.email <;> cases ageOk body.age <;>
    cases cityOk body.city <;> rfl

/-- Claim C7, as amended.  For a create body that carries, of the paths the
schema declares, only `name`, `email`, `age` and `city`, and on which no
validator depends on a conversion through floating point (`age` is not a
string, `name` is not a number of magnitude 2^53 or more): when at least one
key violates the data model, the response is 400 `Validation error` and its
list of errors has exactly one message per offending key among `name`,
`email`, `age` and `city` (`city` offends when its value does not convert to
text); nothing is stored. -/
theorem create_one_message_per_field (db : Db) (now : Nat) (body : Body)
    (_hx : exactBody body = true) (h : offending body ≠ []) :
    (postUsers db now body).2.status = 400 ∧
    (postUsers db now body).2.message = some "Validation error" ∧
    (∃ errors, (postUsers db now body).2.errors = some errors ∧
      errors.length = (offending body).length) ∧
    (postUsers db now body).1.users = db.users := by
  have hnil : (User.new db body).2.validate ≠ [] := by
    intro h0
    have := validate_length db body
    rw [h0] at this
    exact h (List.length_eq_zero.mp this.symm)
  obtain ⟨h1, h2⟩ := postUsers_users_of_invalid now hnil
  refine ⟨by rw [h2], by rw [h2], ⟨_, by rw [h2], ?_⟩, h1⟩
  rw [List.length_map, validate_length]

/-! ## Updating a user -/

theorem castUpdateVal_error {α : Type} {path : String} {cast : JsValue → Option (Field α)}
    {v : Option JsValue} {e : MongooseError} (h : castUpdateVal path cast v = .error e) :
    e = .castError path := by
  cases v with
  | none => simp [castUpdateVal] at h
  | some x =>
    cases hc : cast x <;> simp [castUpdateVal, hc] at h
    exact h.symm

theorem castIncVal_error {path : String} {v : Option JsValue} {e : MongooseError}
    (h : castIncVal path v = .error e) : e = .castError path := by
  cases v with
  | none => simp [castIncVal] at h
  | some x =>
    cases x <;> simp [castIncVal, castNumber] at h
    · exact h.symm
    · rename_i s
      by_cases hs : s = []
      · simp [hs] at h
      · cases hn : stringToNumber s <;> simp [hs, hn] at h
        exact h.symm
    · exact h.symm

theorem castUpdate_error {body : UpdateBody} {e : MongooseError}
    (h : castUpdate body = .error e) : e.name = "CastError" := by
  unfold castUpdate at h
  simp only [bind, Except.bind, pure, Except.pure] at h
  split at h
  · rename_i e1 h1
    cases h
    rw [castUpdateVal_error h1]; rfl
  · split at h
    · rename_i e1 h1
      cases h
      rw [castUpdateVal_error h1]; rfl
    · split at h
      · rename_i e1 h1
        cases h
        rw [castUpdateVal_error h1]; rfl
      · split at h
        · rename_i e1 h1
          cases h
          rw [castUpdateVal_error h1]; rfl
        · split at h
          · rename_i e1 h1
            cases h
            rw [castIncVal_error h1]; rfl
          · cases h

theorem castUpdate_ok {body : UpdateBody} {c : CastedUpdate}
    (h : castUpdate body = .ok c) :
    castUpdateVal "name" userSchema.name.applySetters body.name = .ok c.name ∧
    castUpdateVal "email" userSchema.email.applySetters body.email = .ok c.email ∧
    castUpdateVal "age" userSchema.age.applySetters body.age = .ok c.age ∧
    castUpdateVal "city" userSchema.city.applySetters body.city = .ok c.city ∧
    castIncVal "age" body.incAge = .ok c.incAge := by
  unfold castUpdate at h
  simp only [bind, Except.bind, pure, Except.pure] at h
  cases h1 : castUpdateVal "name" userSchema.name.applySetters body.name with
  | error e => rw [h1] at h; cases h
  | ok n =>
    cases h2 : castUpdateVal "email" userSchema.email.applySetters body.email with
    | error e => rw [h1, h2] at h; cases h
    | ok m =>
      cases h3 : castUpdateVal "age" userSchema.age.applySetters body.age with
      | error e => rw [h1, h2, h3] at h; cases h
      | ok a =>
        cases h4 : castUpdateVal "city" userSchema.city.applySetters body.city with
        | error e => rw [h1, h2, h3, h4] at h; cases h
        | ok t =>
          cases h5 : castIncVal "age" body.incAge with
          | error e => rw [h1, h2, h3, h4, h5] at h; cases h
          | ok i =>
            rw [h1, h2, h3, h4, h5] at h
            cases h
            exact ⟨rfl, rfl, rfl, rfl, rfl⟩

theorem castUpdate_of_parts {body : UpdateBody} {c : CastedUpdate}
    (h1 : castUpdateVal "name" userSchema.name.applySetters body.name = .ok c.name)
    (h2 : castUpdateVal "email" userSchema.email.applySetters body.email = .ok c.email)
    (h3 : castUpdateVal "age" userSchema.age.applySetters body.age = .ok c.age)
    (h4 : castUpdateVal "city" userSchema.city.applySetters body.city = .ok c.city)
    (h5 : castIncVal "age" body.incAge = .ok c.incAge) :
    castUpdate body = .ok c := by
  unfold castUpdate
  simp only [bind, Except.bind, pure, Except.pure, h1, h2, h3, h4, h5]

theorem applyUpdate_error {u : User} {c : CastedUpdate} {now : Nat} {e : MongooseError}
    (h : applyUpdate u c now = .error e) : ∃ code msg, e = .mongoServerError code msg := by
  unfold applyUpdate at h
  simp only at h
  split at h
  · cases h; exact ⟨_, _, rfl⟩
  · cases h

theorem findOneAndUpdate_error {db : Db} {id : Nat} {c : CastedUpdate} {now : Nat}
    {e : MongooseError} (h : findOneAndUpdate db id c now = .error e) :
    ∃ code msg, e = .mongoServerError code msg := by
  unfold findOneAndUpdate at h
  split at h
  · cases h; exact ⟨_, _, rfl⟩
  · split at h
    · cases h; exact ⟨_, _, rfl⟩
    · split at h
      · cases h
      · rename_i u hu
        cases ha : applyUpdate u c now with
        | error e1 =>
          rw [ha] at h
          cases h
          exact applyUpdate_error ha
        | ok new =>
          rw [ha] at h
          simp only at h
          split at h
          · cases h; exact ⟨_, _, rfl⟩
          · cases h

/-- The handler of `PUT /api/users/:id`, by the stage at which the query ends. -/
theorem putUser_eq (db : Db) (now : Nat) (id : JsString) (body : UpdateBody) :
    putUser db now id body =
      match castObjectId id with
      | none =>
        (db, { status := 400, success := false, message := some "Invalid user ID format" })
      | some oid =>
        match castUpdate body with
        | .error _ =>
          (db, { status := 400, success := false, message := some "Invalid user ID format" })
        | .ok c =>
          match updateValidators c with
          | e :: es =>
            (db, { status := 400, success := false, message := some "Validation error",
                   errors := some ((e :: es).map (fun err => err.2)) })
          | [] =>
            match findOneAndUpdate db oid c now with
            | .ok (db1, none) =>
              (db1, { status := 404, success := false, message := some "User not found" })
            | .ok (db1, some r) =>
              (db1, { status := 200, success := true, data := .one r })
            | .error e =>
              (db, { status := 500, success := false,
                     message := some "Server error while updating user",
                     error := some e.message }) := by
  unfold putUser User.findByIdAndUpdate
  cases castObjectId id with
  | none => simp [MongooseError.name]
  | some oid =>
    simp only
    cases hc : castUpdate body with
    | error e =>
      have := castUpdate_error hc
      simp [this]
    | ok c =>
      simp only
      cases hv : updateValidators c with
      | cons e es => simp [MongooseError.name, MongooseError.errors]
      | nil =>
        simp only
        cases hf : findOneAndUpdate db oid c now with
        | error e =>
          obtain ⟨code, msg, rfl⟩ := findOneAndUpdate_error hf
          simp [MongooseError.name]
        | ok r =>
          obtain ⟨db1, r⟩ := r
          cases r <;> rfl

theorem find_by_id {l : List User} {u : User} (hnd : (l.map (fun v => v._id)).Nodup)
    (hu : u ∈ l) : l.find? (fun v => decide (v._id = u._id)) = some u := by
  induction l with
  | nil => cases hu
  | cons w ws ih =>
    simp only [List.map_cons, List.nodup_cons] at hnd
    rcases List.mem_cons.mp hu with rfl | hmem
    · simp [List.find?]
    · have hne : w._id ≠ u._id := by
        intro heq
        exact hnd.1 (heq ▸ List.mem_map_of_mem (fun v => v._id) hmem)
      simp [List.find?, hne, ih hnd.2 hmem]

theorem find_by_id_none {l : List User} {id : Nat} (h : ∀ v ∈ l, v._id ≠ id) :
    l.find? (fun v => decide (v._id = id)) = none := by
  simpa [List.find?_eq_none] using h

theorem find_by_id_some {l : List User} {id : Nat} {u : User}
    (h : l.find? (fun v => decide (v._id = id)) = some u) : u ∈ l ∧ u._id = id := by
  refine ⟨List.mem_of_find?_eq_some h, ?_⟩
  simpa using List.find?_some h

theorem mem_replaceById_self {id : Nat} {r : User} {l : List User}
    (h : ∃ v ∈ l, v._id = id) : r ∈ replaceById id r l := by
  induction l with
  | nil => obtain ⟨v, hv, _⟩ := h; cases hv
  | cons w ws ih =>
    by_cases hw : w._id = id
    · simp [replaceById, hw]
    · simp only [replaceById, hw, if_false, List.mem_cons]
      right
      apply ih
      obtain ⟨v, hv, hvid⟩ := h
      rcases List.mem_cons.mp hv with rfl | hmem
      · exact absurd hvid hw
      · exact ⟨v, hmem, hvid⟩

theorem mem_replaceById_of_ne {id : Nat} {r v : User} {l : List User}
    (hr : r._id = id) (hv : v._id ≠ id) : v ∈ replaceById id r l ↔ v ∈ l := by
  have hvr : v ≠ r := fun h => hv (h ▸ hr)
  induction l with
  | nil => simp [replaceById]
  | cons w ws ih =>
    by_cases hw : w._id = id
    · have hvw : v ≠ w := fun h => hv (h ▸ hw)
      simp [replaceById, hw, hvr, hvw]
    · simp [replaceById, hw, ih]

theorem applyUpdate_ok {u r : User} {c : CastedUpdate} {now : Nat}
    (h : applyUpdate u c now = .ok r) :
    r._id = u._id ∧ r.name = c.name.getD u.name ∧ r.email = c.email.getD u.email ∧
    r.city = c.city.getD u.city ∧ r.createdAt = u.createdAt ∧ r.updatedAt = now ∧
    (c.incAge = none → r.age = c.age.getD u.age) := by
  unfold applyUpdate at h
  simp only at h
  split at h
  · cases h
  · rename_i a ha
    cases h
    refine ⟨rfl, rfl, rfl, rfl, rfl, rfl, ?_⟩
    intro hinc
    rw [hinc] at ha
    simpa using ha.symm

theorem findOneAndUpdate_some {db db1 : Db} {id : Nat} {c : CastedUpdate} {now : Nat}
    {r : User} (h : findOneAndUpdate db id c now = .ok (db1, some r)) :
    ∃ u, db.users.find? (fun v => decide (v._id = id)) = some u ∧
      applyUpdate u c now = .ok r ∧
      db1 = { db with users := replaceById id r db.users } := by
  unfold findOneAndUpdate at h
  split at h
  · cases h
  · split at h
    · cases h
    · split at h
      · cases h
      · rename_i u hu
        cases ha : applyUpdate u c now with
        | error e1 => rw [ha] at h; cases h
        | ok new =>
          rw [ha] at h
          simp only at h
          split at h
          · cases h
          · cases h
            exact ⟨u, hu, ha, rfl⟩

theorem castUpdateVal_none_field {α : Type} {path : String}
    {cast : JsValue → Option (Field α)} {v : Option JsValue} {r : Option (Field α)}
    (h : castUpdateVal path cast v = .ok r) (hv : v = none) : r = none := by
  subst hv
  simp [castUpdateVal] at h
  exact h.symm

theorem castIncVal_none_field {path : String} {v : Option JsValue} {r : Option (Field Int)}
    (h : castIncVal path v = .ok r) (hv : v = none) : r = none := by
  subst hv
  simp [castIncVal] at h
  exact h.symm

/-- Frame of an update.  When an update of the stored user `u` is answered 200,
the returned record is the one persisted under the identifier of `u`, each of
`name`, `email`, `city` whose key the body lacks has the value it had in `u`,
so has `age` when the body has neither the key nor an `$inc` on it, and the
records with another identifier are the same before and after. -/
theorem update_preserves_absent_fields (db : Db) (now : Nat) (id : JsString)
    (body : UpdateBody) (u : User) (hu : u ∈ db.users) (hid : castObjectId id = some u._id)
    (hwf : db.wellFormed) (hok : (putUser db now id body).2.status = 200) :
    ∃ r, (putUser db now id body).2.data = .one r ∧
      r ∈ (putUser db now id body).1.users ∧
      r._id = u._id ∧
      (body.name = none → r.name = u.name) ∧
      (body.email = none → r.email = u.email) ∧
      (body.age = none → body.incAge = none → r.age = u.age) ∧
      (body.city = none → r.city = u.city) ∧
      (∀ v : User, v._id ≠ u._id →
        (v ∈ (putUser db now id body).1.users ↔ v ∈ db.users)) := by
  have hput := putUser_eq db now id body
  rw [hid] at hput
  simp only at hput
  cases hc : castUpdate body with
  | error e => rw [hc] at hput; rw [hput] at hok; simp at hok
  | ok c =>
    rw [hc] at hput
    simp only at hput
    cases hv : updateValidators c with
    | cons e es => rw [hv] at hput; rw [hput] at hok; simp at hok
    | nil =>
      rw [hv] at hput
      simp only at hput
      cases hf : findOneAndUpdate db u._id c now with
      | error e => rw [hf] at hput; rw [hput] at hok; simp at hok
      | ok res =>
        obtain ⟨db1, res⟩ := res
        cases res with
        | none => rw [hf] at hput; rw [hput] at hok; simp at hok
        | some r =>
          rw [hf] at hput
          simp only at hput
          rw [hput]
          simp only
          obtain ⟨u0, hfind, happly, hdb⟩ := findOneAndUpdate_some hf
          have hu0 : u0 = u := by
            have := find_by_id hwf.1 hu
            rw [this] at hfind
            exact (Option.some.inj hfind).symm
          subst hu0
          obtain ⟨h1, h2, h3, h4, _, _, h7⟩ := applyUpdate_ok happly
          obtain ⟨c1, c2, c3, c4, c5⟩ := castUpdate_ok hc
          subst hdb
          refine ⟨r, rfl, mem_replaceById_self ⟨u0, hu, rfl⟩, h1, ?_, ?_, ?_, ?_, ?_⟩
          · intro hb
            rw [h2, castUpdateVal_none_field c1 hb]; rfl
          · intro hb
            rw [h3, castUpdateVal_none_field c2 hb]; rfl
          · intro hb hi
            rw [h7 (castIncVal_none_field c5 hi), castUpdateVal_none_field c3 hb]; rfl
          · intro hb
            rw [h4, castUpdateVal_none_field c4 hb]; rfl
          · intro v hv
            exact mem_replaceById_of_ne h1 hv

theorem castUpdateVal_bind {α : Type} (path : String) (cast : JsValue → Option (Field α))
    (v : Option JsValue) (h : ∀ x, v = some x → (cast x).isSome = true) :
    castUpdateVal path cast v = .ok (v.bind cast) := by
  cases v with
  | none => rfl
  | some x =>
    have := h x rfl
    cases hc : cast x with
    | none => simp [hc] at this
    | some f => simp [castUpdateVal, hc]

theorem nameOk_cast {x : JsValue} (h : nameOk (some x) = true) :
    ∃ s, normalizedText x = some (.val s) ∧ s ≠ [] ∧ jsLength s ≤ 50 := by
  unfold nameOk at h
  simp only at h
  split at h
  · rename_i s hs
    refine ⟨s, hs, ?_, ?_⟩ <;> simp at h
    · intro h0; simp [h0] at h
    · exact h.2
  · cases h

theorem emailOk_cast {x : JsValue} (h : emailOk (some x) = true) :
    ∃ s, normalizedEmail x = some (.val s) ∧ s ≠ [] ∧ emailPattern.test s = true := by
  unfold emailOk at h
  simp only at h
  split at h
  · rename_i s hs
    refine ⟨s, hs, ?_, ?_⟩ <;> simp at h
    · intro h0; simp [h0] at h
    · exact h.2
  · cases h

theorem updateOk_cast {body : UpdateBody} (h : updateOk body = true) :
    castUpdate body = .ok (castedOf body) ∧ updateValidators (castedOf body) = [] ∧
    ¬ ((castedOf body).age.isSome = true ∧ (castedOf body).incAge.isSome = true) ∧
    (castedOf body).incAge ≠ some .null := by
  unfold updateOk at h
  simp only [Bool.and_eq_true, Bool.or_eq_true] at h
  obtain ⟨⟨⟨⟨hn, he⟩, ha⟩, hc⟩, hi⟩ := h
  refine ⟨?_, ?_, ?_, ?_⟩
  · apply castUpdate_of_parts
    · apply castUpdateVal_bind
      intro x hx
      rw [hx] at hn
      obtain ⟨s, hs, _⟩ := nameOk_cast (by simpa using hn)
      rw [name_applySetters, hs]; rfl
    · apply castUpdateVal_bind
      intro x hx
      rw [hx] at he
      obtain ⟨s, hs, _⟩ := emailOk_cast (by simpa using he)
      rw [email_applySetters, hs]; rfl
    · apply castUpdateVal_bind
      intro x hx
      rw [hx] at ha
      rw [age_applySetters]
      unfold ageOk at ha
      cases hcn : castNumber x with
      | none => simp [hcn] at ha
      | some f => rfl
    · apply castUpdateVal_bind
      intro x hx
      rw [hx] at hc
      rw [city_applySetters]
      unfold cityOk at hc
      cases hcs : castString x with
      | none => simp [hcs] at hc
      | some f => simp [normalizedText, hcs]
    · show castIncVal "age" body.incAge = .ok (body.incAge.bind castNumber)
      cases hb : body.incAge with
      | none => rfl
      | some v =>
        rw [hb] at hi
        simp only [Bool.and_eq_true] at hi
        cases hcn : castNumber v with
        | none => simp [hcn] at hi
        | some f =>
          cases v <;> simp_all [castIncVal, castNumber]
  · have h1 : updatePathError "name" userSchema.name.doValidate (castedOf body).name = [] := by
      simp only [castedOf]
      cases hb : body.name with
      | none => rfl
      | some x =>
        rw [hb] at hn
        obtain ⟨s, hs, hne, hlen⟩ := nameOk_cast (by simpa using hn)
        simp [updatePathError, hs, name_doValidate_val, hne, hlen]
    have h2 : updatePathError "email" userSchema.email.doValidate (castedOf body).email = [] := by
      simp only [castedOf]
      cases hb : body.email with
      | none => rfl
      | some x =>
        rw [hb] at he
        obtain ⟨s, hs, hne, hm⟩ := emailOk_cast (by simpa using he)
        simp [updatePathError, hs, email_doValidate_val, hne, hm]
    have h3 : updatePathError "age" userSchema.age.doValidate (castedOf body).age = [] := by
      simp only [castedOf]
      cases hb : body.age with
      | none => rfl
      | some x =>
        rw [hb] at ha
        unfold ageOk at ha
        simp only [Option.bind]
        cases hcn : castNumber x with
        | none => simp [hcn] at ha
        | some f =>
          cases f with
          | absent => simp [updatePathError, age_doValidate_absent]
          | null => simp [updatePathError, age_doValidate_null]
          | val a =>
            simp only [hcn, Bool.and_eq_true, decide_eq_true_eq] at ha
            have h1 : ¬ a < 0 := by omega
            have h2 : ¬ 120 < a := by omega
            simp [updatePathError, age_doValidate_val, h1, h2]
    have h4 : updatePathError "city" userSchema.city.doValidate (castedOf body).city = [] := by
      cases hcc : (castedOf body).city <;> simp [updatePathError, city_doValidate]
    simp [updateValidators, h1, h2, h3, h4]
  · simp only [castedOf]
    cases hb : body.incAge with
    | none => simp
    | some v =>
      rw [hb] at hi
      simp only [Bool.and_eq_true] at hi
      have : body.age = none := by simpa using hi.1
      simp [this]
  · simp only [castedOf]
    cases hb : body.incAge with
    | none => simp
    | some v =>
      rw [hb] at hi
      simp only [Bool.and_eq_true] at hi
      cases hcn : castNumber v with
      | none => simp [hcn] at hi
      | some f =>
        cases f <;> simp [hcn] at hi ⊢

/-- Claim C4.  For a valid update body: a route parameter that is not a
well-formed identifier is answered 400 `Invalid user ID format`, and a
well-formed identifier that no record carries is answered 404 `User not found`;
in both cases the store is unchanged. -/
theorem update_unknown_or_malformed_id (db : Db) (now : Nat) (id : JsString)
    (body : UpdateBody) (hok : updateOk body = true) :
    (castObjectId id = none →
      putUser db now id body =
        (db, { status := 400, success := false, message := some "Invalid user ID format" })) ∧
    (∀ oid, castObjectId id = some oid → (∀ u ∈ db.users, u._id ≠ oid) →
      putUser db now id body =
        (db, { status := 404, success := false, message := some "User not found" })) := by
  obtain ⟨hc, hv, hconf, hnull⟩ := updateOk_cast hok
  refine ⟨?_, ?_⟩
  · intro hid
    rw [putUser_eq, hid]
  · intro oid hid hnone
    rw [putUser_eq, hid]
    simp only [hc, hv]
    have hf : findOneAndUpdate db oid (castedOf body) now = .ok (db, none) := by
      unfold findOneAndUpdate
      rw [if_neg hconf, if_neg hnull, find_by_id_none hnone]
    rw [hf]

/-- Claim C10.  When the store holds two distinct users `u` and `v`, a valid
update of `u` whose email is that of `v` after lower-casing and trimming is
answered with the generic 500 `Server error while updating user` response, and
the store is unchanged. -/
theorem update_duplicate_email_is_server_error (db : Db) (now : Nat) (id : JsString)
    (body : UpdateBody) (u v : User) (e : JsString)
    (hu : u ∈ db.users) (hv : v ∈ db.users) (hne : u._id ≠ v._id)
    (hwf : db.wellFormed) (hid : castObjectId id = some u._id)
    (hve : v.email = .val e) (hok : updateOk body = true)
    (hsame : body.email.bind normalizedEmail = some (.val e)) :
    (putUser db now id body).2.status = 500 ∧
    (putUser db now id body).2.success = false ∧
    (putUser db now id body).2.message = some "Server error while updating user" ∧
    (putUser db now id body).1 = db := by
  obtain ⟨hc, hval, hconf, hnull⟩ := updateOk_cast hok
  have hfind := find_by_id hwf.1 hu
  have huv : u.email ≠ v.email := by
    intro heq
    have huv2 : u = v := List.inj_on_of_nodup_map hwf.2 hu hv heq
    exact hne (by rw [huv2])
  have hf : ∃ err, findOneAndUpdate db u._id (castedOf body) now = .error err := by
    unfold findOneAndUpdate
    rw [if_neg hconf, if_neg hnull, hfind]
    simp only
    cases ha : applyUpdate u (castedOf body) now with
    | error e1 => exact ⟨e1, rfl⟩
    | ok new =>
      simp only
      obtain ⟨_, _, h3, _⟩ := applyUpdate_ok ha
      have hnew : new.email = .val e := by
        rw [h3]
        show ((body.email.bind normalizedEmail).getD u.email) = _
        rw [hsame]; rfl
      have hcond : new.email ≠ u.email ∧
          (userSchema.email.unique &&
            db.users.any (fun w => decide (w._id ≠ u._id) && decide (w.email = new.email))) =
              true := by
        refine ⟨?_, ?_⟩
        · rw [hnew, ← hve]; exact fun h => huv h.symm
        · rw [email_unique, Bool.true_and]
          exact List.any_eq_true.mpr ⟨v, hv, by simp [hnew, hve, Ne.symm hne]⟩
      rw [if_pos hcond]
      exact ⟨_, rfl⟩
  obtain ⟨err, hf⟩ := hf
  rw [putUser_eq, hid]
  simp only [hc, hval, hf]
  exact ⟨trivial, trivial, trivial, trivial⟩

/-! ## Deleting a user and listing -/

theorem eraseP_by_id {l : List User} {u : User} (hnd : (l.map (fun v => v._id)).Nodup)
    (hu : u ∈ l) :
    (∀ v ∈ l.eraseP (fun v => decide (v._id = u._id)), v._id ≠ u._id) ∧
    (∀ v ∈ l, v ≠ u → v ∈ l.eraseP (fun v => decide (v._id = u._id))) ∧
    (l.eraseP (fun v => decide (v._id = u._id))).length + 1 = l.length := by
  induction l with
  | nil => cases hu
  | cons w ws ih =>
    simp only [List.map_cons, List.nodup_cons] at hnd
    rcases List.mem_cons.mp hu with rfl | hmem
    · have hall : ∀ v ∈ ws, v._id ≠ u._id := by
        intro v hv heq
        exact hnd.1 (heq ▸ List.mem_map_of_mem (fun v => v._id) hv)
      simp only [List.eraseP_cons, decide_True, cond_true, if_true]
      refine ⟨hall, ?_, rfl⟩
      intro v hv hvu
      rcases List.mem_cons.mp hv with rfl | h
      · exact absurd rfl hvu
      · exact h
    · have hne : w._id ≠ u._id := by
        intro heq
        exact hnd.1 (heq ▸ List.mem_map_of_mem (fun v => v._id) hmem)
      obtain ⟨i1, i2, i3⟩ := ih hnd.2 hmem
      have hd : decide (w._id = u._id) = false := by simpa using hne
      simp only [List.eraseP_cons, hd, cond_false]
      refine ⟨?_, ?_, ?_⟩
      · intro v hv
        rcases List.mem_cons.mp hv with rfl | h
        · exact hne
        · exact i1 v h
      · intro v hv hvu
        rcases List.mem_cons.mp hv with rfl | h
        · exact List.mem_cons_self _ _
        · exact List.mem_cons_of_mem _ (i2 v h hvu)
      · simp [i3]

/-- Claim C6.  Deleting a stored user `u` is answered 200
`User deleted successfully` with `u` as data; a list request issued afterwards
returns a list without `u` that contains every other user stored before and
whose count is one less than before; deleting `u` again is answered 404
`User not found`. -/
theorem delete_then_list_then_delete (db : Db) (id : JsString) (u : User)
    (hu : u ∈ db.users) (hid : castObjectId id = some u._id) (hwf : db.wellFormed) :
    (deleteUser db id).2 =
      { status := 200, success := true, message := some "User deleted successfully",
        data := .one u } ∧
    (∃ l n, (getUsers (deleteUser db id).1).2 =
        { status := 200, success := true, count := some n, data := .many l } ∧
      u ∉ l ∧ (∀ v ∈ db.users, v ≠ u → v ∈ l) ∧
      (getUsers db).2.count = some (n + 1)) ∧
    (deleteUser (deleteUser db id).1 id).2 =
      { status := 404, success := false, message := some "User not found" } := by
  obtain ⟨e1, e2, e3⟩ := eraseP_by_id hwf.1 hu
  have hdel : deleteUser db id =
      ({ db with users := db.users.eraseP (fun v => decide (v._id = u._id)) },
        { status := 200, success := true, message := some "User deleted successfully",
          data := .one u }) := by
    unfold deleteUser User.findByIdAndDelete
    rw [hid]
    simp only [find_by_id hwf.1 hu]
  rw [hdel]
  refine ⟨rfl, ⟨_, _, rfl, ?_, e2, ?_⟩, ?_⟩
  · intro hmem
    exact e1 u hmem rfl
  · simp [getUsers, User.find, e3]
  · unfold deleteUser User.findByIdAndDelete
    rw [hid]
    simp only [find_by_id_none e1]

/-! ## Normal forms of stored text -/

theorem trim_eq_rdropWhile (s : JsString) :
    trim s = (s.dropWhile isWhiteSpace).rdropWhile isWhiteSpace := rfl

theorem trim_trim (s : JsString) : trim (trim s) = trim s := by
  have hd : (trim s).dropWhile isWhiteSpace = trim s := by
    rw [List.dropWhile_eq_self_iff]
    intro hl
    have hpre : trim s <+: s.dropWhile isWhiteSpace := by
      rw [trim_eq_rdropWhile]; exact List.rdropWhile_prefix _ _
    have hdd : (s.dropWhile isWhiteSpace).dropWhile isWhiteSpace = s.dropWhile isWhiteSpace :=
      List.dropWhile_idempotent _ _
    rw [List.dropWhile_eq_self_iff] at hdd
    have hl2 : 0 < (s.dropWhile isWhiteSpace).length := lt_of_lt_of_le hl hpre.length_le
    have := hdd hl2
    obtain ⟨t, ht⟩ := hpre
    have hget : (trim s).get ⟨0, hl⟩ = (s.dropWhile isWhiteSpace).get ⟨0, hl2⟩ := by
      simp only [List.get_eq_getElem]
      simp only [← ht]
      rw [List.getElem_append_left]
    rw [hget]
    exact this
  rw [trim_eq_rdropWhile, hd, trim_eq_rdropWhile]
  exact List.rdropWhile_idempotent _ _

theorem lowerChar_fixed {c d : Char} (h : d ∈ lowerChar c) : lowerChar d = [d] := by
  unfold lowerChar at h
  simp only at h
  split_ifs at h with h1 h2 h3
  · simp only [List.mem_singleton] at h
    subst h
    generalize c.toNat = n at h1
    obtain ⟨h1, h2⟩ := h1
    interval_cases n <;> decide
  · simp only [List.mem_singleton] at h
    subst h
    decide
  · simp only [List.mem_cons, List.mem_singleton, List.not_mem_nil, or_false] at h
    rcases h with rfl | rfl <;> decide
  · simp only [List.mem_singleton] at h
    subst h
    unfold lowerChar
    simp only
    rw [if_neg h1, if_neg h2, if_neg h3]

theorem toLowerCase_fixed {s : JsString} (h : ∀ c ∈ s, lowerChar c = [c]) :
    toLowerCase s = s := by
  induction s with
  | nil => rfl
  | cons c cs ih =>
    have hc := h c (List.mem_cons_self _ _)
    have := ih (fun d hd => h d (List.mem_cons_of_mem _ hd))
    unfold toLowerCase at this ⊢
    simp [List.flatMap_cons, hc, this]

theorem trim_sublist (s : JsString) : (trim s).Sublist s := by
  rw [trim_eq_rdropWhile]
  exact (List.rdropWhile_prefix _ _).sublist.trans (List.dropWhile_sublist _)

theorem toLowerCase_trim_toLowerCase (s : JsString) :
    toLowerCase (trim (toLowerCase s)) = trim (toLowerCase s) := by
  apply toLowerCase_fixed
  intro c hc
  have hmem : c ∈ toLowerCase s := (trim_sublist _).subset hc
  unfold toLowerCase at hmem
  obtain ⟨d, _, hd⟩ := List.mem_flatMap.mp hmem
  exact lowerChar_fixed hd

theorem normalizedText_trimmed {x : JsValue} {s : JsString}
    (h : normalizedText x = some (.val s)) : trim s = s := by
  unfold normalizedText at h
  cases hc : castString x with
  | none => simp [hc] at h
  | some f =>
    cases f <;> simp [hc, Field.map] at h
    subst h
    exact trim_trim _

theorem normalizedEmail_normal {x : JsValue} {s : JsString}
    (h : normalizedEmail x = some (.val s)) : trim s = s ∧ toLowerCase s = s := by
  unfold normalizedEmail at h
  cases hc : castString x with
  | none => simp [hc] at h
  | some f =>
    cases f <;> simp [hc, Field.map] at h
    subst h
    exact ⟨trim_trim _, toLowerCase_trim_toLowerCase _⟩

theorem userValid_iff (u : User) :
    userValid u = true ↔ nameValid u.name = true ∧ emailValid u.email = true ∧
      ageValid u.age = true := by
  simp only [userValid, Bool.and_eq_true, and_assoc]

/-! ## What each handler does to the store -/

theorem postUsers_state (db : Db) (now : Nat) (body : Body) :
    (postUsers db now body).1.nextObjectId = db.nextObjectId + 1 ∧
    ((postUsers db now body).1.users = db.users ∨
      ((User.new db body).2.validate = [] ∧
        db.users.any
          (fun v => decide (v.email = ((User.new db body).2.toUser now).email)) = false ∧
        (postUsers db now body).1.users = db.users ++ [(User.new db body).2.toUser now])) := by
  rw [postUsers_eq]
  cases hv : (User.new db body).2.validate with
  | cons e es => exact ⟨rfl, Or.inl rfl⟩
  | nil =>
    simp only
    by_cases hd : db.users.any
        (fun v => decide (v.email = ((User.new db body).2.toUser now).email)) = true
    · rw [if_pos hd]; exact ⟨rfl, Or.inl rfl⟩
    · rw [if_neg hd]
      exact ⟨rfl, Or.inr ⟨trivial, by simpa using hd, rfl⟩⟩

theorem findOneAndUpdate_state {db db1 : Db} {id : Nat} {c : CastedUpdate} {now : Nat}
    {res : Option User} (h : findOneAndUpdate db id c now = .ok (db1, res)) :
    db1 = db ∨
    ∃ u r, db.users.find? (fun v => decide (v._id = id)) = some u ∧
      applyUpdate u c now = .ok r ∧
      ¬ (r.email ≠ u.email ∧
        db.users.any (fun v => decide (v._id ≠ id) && decide (v.email = r.email)) = true) ∧
      db1 = { db with users := replaceById id r db.users } := by
  unfold findOneAndUpdate at h
  split at h
  · cases h
  · split at h
    · cases h
    · split at h
      · cases h; exact Or.inl rfl
      · rename_i u hu
        cases ha : applyUpdate u c now with
        | error e1 => rw [ha] at h; cases h
        | ok new =>
          rw [ha] at h
          simp only at h
          split at h
          · cases h
          · rename_i hcond
            cases h
            exact Or.inr ⟨u, new, hu, ha, hcond, rfl⟩

theorem putUser_state (db : Db) (now : Nat) (id : JsString) (body : UpdateBody) :
    (putUser db now id body).1 = db ∨
    ∃ oid c u r, castUpdate body = .ok c ∧ updateValidators c = [] ∧
      db.users.find? (fun v => decide (v._id = oid)) = some u ∧
      applyUpdate u c now = .ok r ∧
      ¬ (r.email ≠ u.email ∧
        db.users.any (fun v => decide (v._id ≠ oid) && decide (v.email = r.email)) = true) ∧
      (putUser db now id body).1 = { db with users := replaceById oid r db.users } := by
  rw [putUser_eq]
  cases castObjectId id with
  | none => exact Or.inl rfl
  | some oid =>
    simp only
    cases hc : castUpdate body with
    | error e => exact Or.inl rfl
    | ok c =>
      simp only
      cases hv : updateValidators c with
      | cons e es => exact Or.inl rfl
      | nil =>
        simp only
        cases hf : findOneAndUpdate db oid c now with
        | error e => exact Or.inl rfl
        | ok res =>
          obtain ⟨db1, res⟩ := res
          rcases findOneAndUpdate_state hf with h | ⟨u, r, h1, h2, h3, h4⟩
          · left
            cases res <;> exact h
          · right
            refine ⟨oid, c, u, r, rfl, hv, h1, h2, h3, ?_⟩
            cases res <;> exact h4

theorem deleteUser_state (db : Db) (id : JsString) :
    (deleteUser db id).1 = db ∨
    ∃ oid, (deleteUser db id).1 =
      { db with users := db.users.eraseP (fun v => decide (v._id = oid)) } := by
  unfold deleteUser User.findByIdAndDelete
  cases castObjectId id with
  | none => exact Or.inl rfl
  | some oid =>
    simp only
    cases db.users.find? (fun v => decide (v._id = oid)) with
    | none => exact Or.inl rfl
    | some u => exact Or.inr ⟨oid, rfl⟩

theorem map_id_replaceById {id : Nat} {r : User} (hr : r._id = id) (l : List User) :
    (replaceById id r l).map (fun v => v._id) = l.map (fun v => v._id) := by
  induction l with
  | nil => rfl
  | cons w ws ih =>
    by_cases hw : w._id = id
    · simp [replaceById, hw, hr]
    · simp [replaceById, hw, ih]

theorem mem_replaceById {id : Nat} {r x : User} {l : List User}
    (h : x ∈ replaceById id r l) : x = r ∨ x ∈ l := by
  induction l with
  | nil => cases h
  | cons w ws ih =>
    by_cases hw : w._id = id
    · simp only [replaceById, hw, if_true, List.mem_cons] at h
      rcases h with h | h
      · exact Or.inl h
      · exact Or.inr (List.mem_cons_of_mem _ h)
    · simp only [replaceById, hw, if_false, List.mem_cons] at h
      rcases h with h | h
      · exact Or.inr (h ▸ List.mem_cons_self _ _)
      · rcases ih h with h | h
        · exact Or.inl h
        · exact Or.inr (List.mem_cons_of_mem _ h)

theorem emails_nodup_replaceById {id : Nat} {r u : User} {l : List User}
    (hid : (l.map (fun v => v._id)).Nodup) (hem : (l.map (fun v => v.email)).Nodup)
    (hu : u ∈ l) (huid : u._id = id)
    (hcond : r.email = u.email ∨ ∀ w ∈ l, w._id ≠ id → w.email ≠ r.email) :
    ((replaceById id r l).map (fun v => v.email)).Nodup := by
  induction l with
  | nil => cases hu
  | cons w ws ih =>
    simp only [List.map_cons, List.nodup_cons, List.mem_map, not_exists, not_and] at hid hem
    by_cases hw : w._id = id
    · have hrest : ∀ x ∈ ws, x._id ≠ id := by
        intro x hx heq
        exact hid.1 x hx (by rw [heq, hw])
      have huw : u = w := by
        rcases List.mem_cons.mp hu with h | h
        · exact h
        · exact absurd huid (hrest u h)
      simp only [replaceById, hw, if_true, List.map_cons, List.nodup_cons, List.mem_map,
        not_exists, not_and]
      refine ⟨?_, hem.2⟩
      intro x hx heq
      rcases hcond with h | h
      · exact hem.1 x hx (by rw [heq, h, huw])
      · exact h x (List.mem_cons_of_mem _ hx) (hrest x hx) heq
    · have hu2 : u ∈ ws := by
        rcases List.mem_cons.mp hu with h | h
        · exact absurd (h ▸ huid) hw
        · exact h
      have hcond2 : r.email = u.email ∨ ∀ x ∈ ws, x._id ≠ id → x.email ≠ r.email := by
        rcases hcond with h | h
        · exact Or.inl h
        · exact Or.inr (fun x hx => h x (List.mem_cons_of_mem _ hx))
      simp only [replaceById, hw, if_false, List.map_cons, List.nodup_cons, List.mem_map,
        not_exists, not_and]
      refine ⟨?_, ih hid.2 hem.2 hu2 hcond2⟩
      intro x hx heq
      rcases mem_replaceById hx with h | h
      · subst h
        rcases hcond with h | h
        · exact hem.1 u hu2 (by rw [← h, heq])
        · exact h w (List.mem_cons_self _ _) hw heq.symm
      · exact hem.1 x h heq

theorem consistent_handle {db : Db} (h : db.consistent) (req : Request) :
    (handle db req).1.consistent := by
  obtain ⟨⟨hid, hem⟩, hlt⟩ := h
  cases req with
  | list => exact ⟨⟨hid, hem⟩, hlt⟩
  | create now body =>
    obtain ⟨hn, hu⟩ := postUsers_state db now body
    show (postUsers db now body).1.consistent
    unfold Db.consistent Db.wellFormed
    rw [hn]
    rcases hu with hu | ⟨_, hany, hu⟩
    · rw [hu]
      exact ⟨⟨hid, hem⟩, fun u hu => Nat.lt_succ_of_lt (hlt u hu)⟩
    · rw [hu]
      have hidnew : ((User.new db body).2.toUser now)._id = db.nextObjectId := rfl
      refine ⟨⟨?_, ?_⟩, ?_⟩
      · rw [List.map_append, List.nodup_append]
        refine ⟨hid, by simp, ?_⟩
        intro a ha hb
        simp only [List.map_cons, List.map_nil, List.mem_singleton] at hb
        obtain ⟨v, hv, rfl⟩ := List.mem_map.mp ha
        have := hlt v hv
        rw [hb, hidnew] at this
        exact lt_irrefl _ this
      · rw [List.map_append, List.nodup_append]
        refine ⟨hem, by simp, ?_⟩
        intro a ha hb
        simp only [List.map_cons, List.map_nil, List.mem_singleton] at hb
        obtain ⟨v, hv, rfl⟩ := List.mem_map.mp ha
        have hall := List.any_eq_false.mp hany v hv
        simp only [decide_eq_true_eq] at hall
        exact hall hb
      · intro u hu
        rcases List.mem_append.mp hu with h | h
        · exact Nat.lt_succ_of_lt (hlt u h)
        · simp only [List.mem_singleton] at h
          rw [h, hidnew]
          exact Nat.lt_succ_self _
  | update now id body =>
    show (putUser db now id body).1.consistent
    rcases putUser_state db now id body with h | ⟨oid, c, u, r, _, _, hfind, happly, hcond, h⟩
    · rw [h]; exact ⟨⟨hid, hem⟩, hlt⟩
    · rw [h]
      obtain ⟨hu, huid⟩ := find_by_id_some hfind
      obtain ⟨hrid, _, _, _, _, _, _⟩ := applyUpdate_ok happly
      have hr : r._id = oid := by rw [hrid, huid]
      refine ⟨⟨?_, ?_⟩, ?_⟩
      · show ((replaceById oid r db.users).map (fun v => v._id)).Nodup
        rw [map_id_replaceById hr]; exact hid
      · show ((replaceById oid r db.users).map (fun v => v.email)).Nodup
        apply emails_nodup_replaceById hid hem hu huid
        by_cases heq : r.email = u.email
        · exact Or.inl heq
        · right
          intro w hw hwid hwe
          apply hcond
          refine ⟨heq, List.any_eq_true.mpr ⟨w, hw, ?_⟩⟩
          simp [hwid, hwe]
      · intro x hx
        rcases mem_replaceById hx with h | h
        · rw [h, hr, ← huid]; exact hlt u hu
        · exact hlt x h
  | delete id =>
    show (deleteUser db id).1.consistent
    rcases deleteUser_state db id with h | ⟨oid, h⟩
    · rw [h]; exact ⟨⟨hid, hem⟩, hlt⟩
    · rw [h]
      have hsub : (db.users.eraseP (fun v => decide (v._id = oid))).Sublist db.users :=
        List.eraseP_sublist _
      exact ⟨⟨(hsub.map _).nodup hid, (hsub.map _).nodup hem⟩,
        fun u hu => hlt u (hsub.subset hu)⟩

theorem consistent_foldl (reqs : List Request) (db : Db) (h : db.consistent) :
    (reqs.foldl (fun db r => (handle db r).1) db).consistent := by
  induction reqs generalizing db with
  | nil => exact h
  | cons r rs ih => exact ih _ (consistent_handle h r)

/-- After any sequence of requests no two persisted users share an identifier
or an email. -/
theorem wellFormed_run (reqs : List Request) : (run reqs).wellFormed := by
  have h0 : Db.consistent { users := [], nextObjectId := 0 } :=
    ⟨⟨List.nodup_nil, List.nodup_nil⟩, fun _ h => by cases h⟩
  exact (consistent_foldl reqs _ h0).1

/-! ## Validity of what is written -/

theorem castUpdateVal_some {α : Type} {path : String} {cast : JsValue → Option (Field α)}
    {v : Option JsValue} {f : Field α} (h : castUpdateVal path cast v = .ok (some f)) :
    ∃ x, v = some x ∧ cast x = some f := by
  cases v with
  | none => simp [castUpdateVal] at h
  | some x =>
    cases hc : cast x with
    | none => simp [castUpdateVal, hc] at h
    | some g =>
      simp [castUpdateVal, hc] at h
      exact ⟨x, rfl, h ▸ hc⟩

theorem nameValid_of_validated {x : JsValue} {f : Field JsString}
    (hc : normalizedText x = some f) (hv : userSchema.name.doValidate f = none) :
    nameValid f = true := by
  cases f with
  | absent => simp [name_doValidate_absent] at hv
  | null => simp [name_doValidate_null] at hv
  | val s =>
    rw [name_doValidate_val] at hv
    by_cases h1 : s = []
    · simp [h1] at hv
    · by_cases h2 : jsLength s ≤ 50
      · simp [nameValid, h1, h2, normalizedText_trimmed hc]
      · simp [h1, h2] at hv

theorem emailValid_of_validated {x : JsValue} {f : Field JsString}
    (hc : normalizedEmail x = some f) (hv : userSchema.email.doValidate f = none) :
    emailValid f = true := by
  cases f with
  | absent => simp [email_doValidate_absent] at hv
  | null => simp [email_doValidate_null] at hv
  | val s =>
    rw [email_doValidate_val] at hv
    by_cases h1 : s = []
    · simp [h1] at hv
    · by_cases h2 : emailPattern.test s = true
      · simp [emailValid, h2, (normalizedEmail_normal hc).1, (normalizedEmail_normal hc).2]
      · simp [h1, h2] at hv

theorem ageValid_of_validated {f : Field Int} (hv : userSchema.age.doValidate f = none) :
    ageValid f = true := by
  cases f with
  | absent => rfl
  | null => rfl
  | val a =>
    rw [age_doValidate_val] at hv
    by_cases h1 : a < 0
    · simp [h1] at hv
    · by_cases h2 : 120 < a
      · simp [h1, h2] at hv
      · simp only [ageValid, Bool.and_eq_true, decide_eq_true_eq]
        omega

theorem pathError_nil {α : Type} {path kind : String} {validate : Field α → Option String}
    {d : Option (Field α)} (h : pathError path kind validate d = []) :
    ∃ f, d = some f ∧ validate f = none := by
  cases d with
  | none => simp [pathError] at h
  | some f =>
    refine ⟨f, rfl, ?_⟩
    cases hv : validate f with
    | none => rfl
    | some m => simp [pathError, hv] at h

theorem updatePathError_nil {α : Type} {path : String} {validate : Field α → Option String}
    {f : Field α} (h : updatePathError path validate (some f) = []) : validate f = none := by
  cases hv : validate f with
  | none => rfl
  | some m => simp [updatePathError, hv] at h

theorem setPath_some {α : Type} {cast : JsValue → Option (Field α)} {v : Option JsValue}
    {f : Field α} (h : setPath cast v = some f) :
    (v = none ∧ f = .absent) ∨ ∃ x, v = some x ∧ cast x = some f := by
  cases v with
  | none =>
    simp [setPath] at h
    exact Or.inl ⟨rfl, h.symm⟩
  | some x => exact Or.inr ⟨x, rfl, h⟩

theorem userValid_new {db : Db} {now : Nat} {body : Body}
    (h : (User.new db body).2.validate = []) :
    userValid ((User.new db body).2.toUser now) = true := by
  unfold Document.validate at h
  simp only [List.append_eq_nil] at h
  obtain ⟨⟨⟨h1, h2⟩, h3⟩, _⟩ := h
  obtain ⟨f1, hd1, hv1⟩ := pathError_nil h1
  obtain ⟨f2, hd2, hv2⟩ := pathError_nil h2
  obtain ⟨f3, hd3, hv3⟩ := pathError_nil h3
  rw [userValid_iff]
  simp only [Document.toUser, hd1, hd2, hd3, Option.getD_some]
  refine ⟨?_, ?_, ageValid_of_validated hv3⟩
  · rcases setPath_some hd1 with ⟨_, hf⟩ | ⟨x, _, hx⟩
    · rw [hf, name_doValidate_absent] at hv1; cases hv1
    · rw [name_applySetters] at hx
      exact nameValid_of_validated hx hv1
  · rcases setPath_some hd2 with ⟨_, hf⟩ | ⟨x, _, hx⟩
    · rw [hf, email_doValidate_absent] at hv2; cases hv2
    · rw [email_applySetters] at hx
      exact emailValid_of_validated hx hv2

theorem userValid_update {body : UpdateBody} {c : CastedUpdate} {u r : User} {now : Nat}
    (hplain : body.incAge = none) (hc : castUpdate body = .ok c)
    (hv : updateValidators c = []) (ha : applyUpdate u c now = .ok r)
    (hu : userValid u = true) : userValid r = true := by
  obtain ⟨c1, c2, c3, _, c5⟩ := castUpdate_ok hc
  obtain ⟨_, r2, r3, _, _, _, r7⟩ := applyUpdate_ok ha
  have r7 := r7 (castIncVal_none_field c5 hplain)
  unfold updateValidators at hv
  simp only [List.append_eq_nil] at hv
  obtain ⟨⟨⟨v1, v2⟩, v3⟩, _⟩ := hv
  rw [userValid_iff] at hu ⊢
  obtain ⟨u1, u2, u3⟩ := hu
  refine ⟨?_, ?_, ?_⟩
  · rw [r2]
    cases hn : c.name with
    | none => exact u1
    | some f =>
      rw [hn] at c1 v1
      obtain ⟨x, _, hx⟩ := castUpdateVal_some c1
      rw [name_applySetters] at hx
      exact nameValid_of_validated hx (updatePathError_nil v1)
  · rw [r3]
    cases hn : c.email with
    | none => exact u2
    | some f =>
      rw [hn] at c2 v2
      obtain ⟨x, _, hx⟩ := castUpdateVal_some c2
      rw [email_applySetters] at hx
      exact emailValid_of_validated hx (updatePathError_nil v2)
  · rw [r7]
    cases hn : c.age with
    | none => exact u3
    | some f =>
      rw [hn] at v3
      exact ageValid_of_validated (updatePathError_nil v3)

theorem valid_handle {db : Db} (h : ∀ u ∈ db.users, userValid u = true) (req : Request)
    (hp : req.plain = true) : ∀ u ∈ (handle db req).1.users, userValid u = true := by
  cases req with
  | list => exact h
  | create now body =>
    show ∀ u ∈ (postUsers db now body).1.users, userValid u = true
    obtain ⟨_, hu⟩ := postUsers_state db now body
    rcases hu with hu | ⟨hv, _, hu⟩
    · rw [hu]; exact h
    · rw [hu]
      intro u hmem
      rcases List.mem_append.mp hmem with hm | hm
      · exact h u hm
      · simp only [List.mem_singleton] at hm
        rw [hm]
        exact userValid_new hv
  | update now id body =>
    show ∀ u ∈ (putUser db now id body).1.users, userValid u = true
    rcases putUser_state db now id body with hs | ⟨oid, c, u, r, hc, hv, hfind, happly, _, hs⟩
    · rw [hs]; exact h
    · rw [hs]
      intro x hx
      rcases mem_replaceById hx with hm | hm
      · rw [hm]
        have hplain : body.incAge = none := by
          simpa [Request.plain] using hp
        exact userValid_update hplain hc hv happly (h u (find_by_id_some hfind).1)
      · exact h x hm
  | delete id =>
    show ∀ u ∈ (deleteUser db id).1.users, userValid u = true
    rcases deleteUser_state db id with hs | ⟨oid, hs⟩
    · rw [hs]; exact h
    · rw [hs]
      intro x hx
      exact h x ((List.eraseP_sublist _).subset hx)

theorem valid_foldl (reqs : List Request) (db : Db) (h : ∀ u ∈ db.users, userValid u = true)
    (hp : ∀ r ∈ reqs, r.plain = true) :
    ∀ u ∈ (reqs.foldl (fun db r => (handle db r).1) db).users, userValid u = true := by
  induction reqs generalizing db with
  | nil => exact h
  | cons r rs ih =>
    exact ih _ (valid_handle h r (hp r (List.mem_cons_self _ _)))
      (fun q hq => hp q (List.mem_cons_of_mem _ hq))

/-- Store validity is kept by every sequence of requests whose update bodies
carry user keys only. -/
theorem storeValid_run_of_plain (reqs : List Request) (hp : ∀ r ∈ reqs, r.plain = true) :
    storeValid (run reqs) = true := by
  unfold storeValid
  simp only [Bool.and_eq_true, List.all_eq_true, decide_eq_true_eq]
  exact ⟨valid_foldl reqs _ (fun _ h => by cases h) hp, wellFormed_run reqs⟩

/-! ## Which requests are answered `Invalid user ID format` -/

/-- The delete handler answers `Invalid user ID format` only for a route
parameter that is not a well-formed identifier. -/
theorem deleteUser_invalid_id_format_iff (db : Db) (id : JsString) :
    (deleteUser db id).2.message = some "Invalid user ID format" ↔ castObjectId id = none := by
  unfold deleteUser User.findByIdAndDelete
  cases castObjectId id with
  | none => simp [MongooseError.name]
  | some oid =>
    simp only
    cases db.users.find? (fun v => decide (v._id = oid)) <;> simp

/-- The update handler answers `Invalid user ID format` exactly when the route
parameter is not a well-formed identifier or the cast of a body value fails. -/
theorem putUser_invalid_id_format_iff (db : Db) (now : Nat) (id : JsString)
    (body : UpdateBody) :
    (putUser db now id body).2.message = some "Invalid user ID format" ↔
      castObjectId id = none ∨ ∃ e, castUpdate body = .error e := by
  rw [putUser_eq]
  cases castObjectId id with
  | none => simp
  | some oid =>
    simp only
    cases hc : castUpdate body with
    | error e => simp
    | ok c =>
      simp only
      cases hv : updateValidators c with
      | cons e es => simp
      | nil =>
        simp only
        cases hf : findOneAndUpdate db oid c now with
        | error e => simp
        | ok res =>
          obtain ⟨db1, res⟩ := res
          cases res <;> simp

/-! ## Evaluations at concrete requests -/

/-- Witness of claim C1: Ann is rejected with age -1 and with age 121, and
created with age 0, with age 120 and without age. -/
theorem create_age_bounds_witness :
    (nameOk (annBody none).name = true ∧ emailOk (annBody none).email = true ∧
      cityOk (annBody none).city = true ∧ emailFresh emptyDb (annBody none).email = true) ∧
    (postUsers emptyDb 1 (annBody (some (.num (-1))))).2 =
      { status := 400, success := false, message := some "Validation error",
        errors := some ["Age cannot be negative"] } ∧
    (postUsers emptyDb 1 (annBody (some (.num 121)))).2 =
      { status := 400, success := false, message := some "Validation error",
        errors := some ["Age cannot exceed 120"] } ∧
    (postUsers emptyDb 1 (annBody (some (.num 0)))).2.status = 201 ∧
    (postUsers emptyDb 1 (annBody (some (.num 120)))).2.status = 201 ∧
    (postUsers emptyDb 1 (annBody none)).2.status = 201 :=
  ⟨by decide,
   ((create_age_bounds emptyDb 1 (annBody (some (.num (-1))))
      (by decide) (by decide) (by decide) (by decide)).2 (-1) rfl).2.1 (by decide),
   ((create_age_bounds emptyDb 1 (annBody (some (.num 121)))
      (by decide) (by decide) (by decide) (by decide)).2 121 rfl).2.2 (by decide),
   ((create_age_bounds emptyDb 1 (annBody (some (.num 0)))
      (by decide) (by decide) (by decide) (by decide)).2 0 rfl).1.mpr (by decide),
   ((create_age_bounds emptyDb 1 (annBody (some (.num 120)))
      (by decide) (by decide) (by decide) (by decide)).2 120 rfl).1.mpr (by decide),
   (create_age_bounds emptyDb 1 (annBody none)
      (by decide) (by decide) (by decide) (by decide)).1 rfl⟩

/-- Counterexample to claim C1 as stated: a body with valid name and email, a
fresh email and no age is rejected when its `city` is an array. -/
theorem create_age_claim_fails_for_array_city :
    ¬ (∀ (db : Db) (now : Nat) (body : Body),
        nameOk body.name = true → emailOk body.email = true →
        emailFresh db body.email = true →
        (body.age = none → (postUsers db now body).2.status = 201) ∧
        (∀ a : Int, body.age = some (.num a) →
          ((postUsers db now body).2.status = 201 ↔ 0 ≤ a ∧ a ≤ 120))) := by
  intro h
  have h1 := (h emptyDb 1 arrayCityBody (by decide) (by decide) (by decide)).1 rfl
  revert h1
  decide

/-- Witness of claim C2: creating a user with email `not-an-email` is answered
with the validation failure naming the email, and nothing is stored. -/
theorem create_invalid_email_witness :
    (postUsers emptyDb 1 notAnEmailBody).2.status = 400 ∧
    (postUsers emptyDb 1 notAnEmailBody).2.message = some "Validation error" ∧
    (∃ errors, (postUsers emptyDb 1 notAnEmailBody).2.errors = some errors ∧
      "Please enter a valid email" ∈ errors) ∧
    (postUsers emptyDb 1 notAnEmailBody).1.users = emptyDb.users :=
  create_invalid_email emptyDb 1 notAnEmailBody (.str "not-an-email".toList) "not-an-email".toList
    rfl (by decide) (by decide) (by decide)

/-- Witness of claim C3: with Ann stored, a second create with her email in
other letter case and with surrounding blanks is answered `Email already exists`. -/
theorem create_duplicate_email_witness :
    annUser ∈ annDb.users ∧
    (postUsers annDb 2 annaBody).2 =
      { status := 400, success := false, message := some "Email already exists" } ∧
    (postUsers annDb 2 annaBody).1.users = annDb.users :=
  ⟨by decide,
   create_duplicate_email annDb 2 annaBody annUser "ann@example.com".toList
    (by decide) rfl (by decide) (by decide) (by decide) (by decide) (by decide)⟩

/-- Witness of claim C4: on the store holding Ann, an update of the second
identifier is answered 404 and an update of `xyz` is answered 400. -/
theorem update_unknown_or_malformed_id_witness :
    putUser annDb 3 "xyz".toList parisUpdate =
      (annDb, { status := 400, success := false, message := some "Invalid user ID format" }) ∧
    putUser annDb 3 secondId parisUpdate =
      (annDb, { status := 404, success := false, message := some "User not found" }) :=
  ⟨(update_unknown_or_malformed_id annDb 3 "xyz".toList parisUpdate (by decide)).1 (by decide),
   (update_unknown_or_malformed_id annDb 3 secondId parisUpdate (by decide)).2 1 (by decide)
     (by decide)⟩

/-- The frame of an update at a concrete request: the update `city: Paris` of
Ann keeps her name, email and age. -/
theorem update_preserves_absent_fields_witness :
    ∃ r, (putUser annDb 3 firstId parisUpdate).2.data = .one r ∧
      r.name = annUser.name ∧ r.email = annUser.email ∧ r.age = annUser.age ∧
      r._id = annUser._id :=
  let ⟨r, h1, _, h3, h4, h5, h6, _, _⟩ :=
    update_preserves_absent_fields annDb 3 firstId parisUpdate
      annUser (by decide) (by decide) (by decide) (by decide)
  ⟨r, h1, h4 rfl, h5 rfl, h6 rfl rfl, h3⟩

/-- Witness of claim C6: deleting Ann returns her record, and deleting her
again is answered 404. -/
theorem delete_then_list_then_delete_witness :
    (deleteUser annBobDb firstId).2 =
      { status := 200, success := true, message := some "User deleted successfully",
        data := .one annUser } ∧
    (deleteUser (deleteUser annBobDb firstId).1 firstId).2 =
      { status := 404, success := false, message := some "User not found" } :=
  ⟨(delete_then_list_then_delete annBobDb firstId annUser
      (by decide) (by decide) (by decide)).1,
   (delete_then_list_then_delete annBobDb firstId annUser
      (by decide) (by decide) (by decide)).2.2⟩

/-- Witness of claim C7: a body in which all four keys offend is answered with
four messages. -/
theorem create_one_message_per_field_witness :
    exactBody allBadBody = true ∧
    (offending allBadBody).length = 4 ∧
    (postUsers emptyDb 1 allBadBody).2.status = 400 ∧
    (postUsers emptyDb 1 allBadBody).2.message = some "Validation error" ∧
    (∃ errors, (postUsers emptyDb 1 allBadBody).2.errors = some errors ∧
      errors.length = (offending allBadBody).length) ∧
    (postUsers emptyDb 1 allBadBody).1.users = emptyDb.users :=
  ⟨by decide, by decide,
   create_one_message_per_field emptyDb 1 allBadBody (by decide) (by decide)⟩

/-- Counterexample to claim C7 as stated: with valid name, email and age and an
array as `city`, the list of errors holds one message although none of `name`,
`email`, `age` offends. -/
theorem errors_count_claim_fails_for_array_city :
    ¬ (∀ (db : Db) (now : Nat) (body : Body), offending body ≠ [] →
        ∃ errors, (postUsers db now body).2.errors = some errors ∧
          errors.length = (offendingOfThree body).length) := by
  intro h
  obtain ⟨errors, h1, h2⟩ := h emptyDb 1 arrayCityBody (by decide)
  have h3 : (postUsers emptyDb 1 arrayCityBody).2.errors.map List.length = some 1 := by
    decide
  have h4 : (offendingOfThree arrayCityBody).length = 0 := by decide
  rw [h1, Option.map_some', h2, h4] at h3
  cases h3

/-- Claim C5 fails on the code: with Ann stored at age 120, the update body
that lacks the key `age` and carries `$inc` of `age` by 1 is answered 200 with
a record whose age is 121; her name, email and city are kept. -/
theorem inc_changes_age_absent_from_body :
    annUser ∈ annDb.users ∧ castObjectId firstId = some annUser._id ∧
    annUser.age = .val 120 ∧ incUpdate.age = none ∧
    (putUser annDb 2 firstId incUpdate).2.status = 200 ∧
    (putUser annDb 2 firstId incUpdate).2.data =
      .one { annUser with age := .val 121, updatedAt := 2 } ∧
    { annUser with age := .val 121, updatedAt := 2 } ∈
      (putUser annDb 2 firstId incUpdate).1.users := by
  decide

/-- Claim C8 fails on the code: after Ann is created with age 120, the update
body with `$inc` of `age` by 1 is answered 200 and the store holds age 121, so
the store is no longer valid. -/
theorem inc_writes_age_out_of_range :
    (putUser annDb 2 firstId incUpdate).2.status = 200 ∧
    (∃ u ∈ (putUser annDb 2 firstId incUpdate).1.users,
      u.age = .val 121) ∧
    storeValid (run [.create 1 (annBody (some (.num 120))),
      .update 2 firstId incUpdate]) = false := by
  decide

/-- Claim C9 fails on the code: with Ann stored, an update of her well-formed
identifier whose `age` is the string `abc` is answered `Invalid user ID format`. -/
theorem cast_error_on_age_reported_as_invalid_id :
    castObjectId firstId = some annUser._id ∧ annUser ∈ annDb.users ∧
    putUser annDb 2 firstId badAgeUpdate =
      (annDb, { status := 400, success := false, message := some "Invalid user ID format" }) := by
  decide

/-- Witness of claim C10: with Ann and Bob stored, an update of Ann that sets
her email to that of Bob is answered with the generic 500 response. -/
theorem update_duplicate_email_is_server_error_witness :
    (annUser ∈ annBobDb.users ∧ bobUser ∈ annBobDb.users ∧ annBobDb.wellFormed) ∧
    (putUser annBobDb 3 firstId bobEmailUpdate).2.status
      = 500 ∧
    (putUser annBobDb 3 firstId bobEmailUpdate).2.success
      = false ∧
    (putUser annBobDb 3 firstId bobEmailUpdate).2.message
      = some "Server error while updating user" ∧
    (putUser annBobDb 3 firstId bobEmailUpdate).1
      = annBobDb :=
  ⟨by decide,
   update_duplicate_email_is_server_error annBobDb 3 firstId bobEmailUpdate annUser bobUser
    "bob@example.com".toList (by decide) (by decide) (by decide) (by decide) (by decide)
    rfl (by decide) (by decide)⟩


end UserService
